import Mathlib

/-
Verification of the structural-clone and image-embedding core of
html-to-image (files `clone-node.ts` and `embed-images.ts`).

The DOM is embedded shallowly: a node is an inductive tree; browser
collaborators that live outside the two source files (computed style,
`DOMMatrix` parsing/printing, the resource resolver `resourceToDataURL`,
the CSS URL rewriter `embedResources`, `clonePseudoElements`,
`getStyleProperties`) are oracles carried in `Options` or passed as
function parameters, exactly at the call sites where the source invokes
them.  Promises that the source awaits strictly sequentially are modelled
by pure sequential computation; the asynchronous child-cloning fold is
additionally given a timed model (`timedReduce`) in which every child
clone has an arbitrary latency, so that ordering statements can be made
for every latency assignment.  General recursion through `cloneNode`
(which can be made to diverge by a self-referencing SVG symbol) is
modelled with an explicit fuel parameter; `none` means the computation
did not complete within the fuel.
-/

set_option autoImplicit false

namespace HtmlToImage

/-- One declaration of a CSS inline-style block: property name, value and
priority (`""` or `"important"`), mirroring the CSSOM triple. -/
structure StyleProp where
  name : String
  value : String
  priority : String
deriving DecidableEq, Repr

/-- `style.getPropertyValue(name)`: the value of the first declaration with
that name, or `""` when the property is not declared. -/
def getStyleVal : List StyleProp → String → String
  | [], _ => ""
  | p :: ps, n => if n = p.name then p.value else getStyleVal ps n

/-- `style.getPropertyPriority(name)`: `""` when the property is absent. -/
def getStylePrio : List StyleProp → String → String
  | [], _ => ""
  | p :: ps, n => if n = p.name then p.priority else getStylePrio ps n

/-- `style.removeProperty(name)`. -/
def removeStyleProp (st : List StyleProp) (n : String) : List StyleProp :=
  st.filter (fun p => n ≠ p.name)

/-- Replace the first declaration named `n`, keeping its position. -/
def updateStyleProp : List StyleProp → String → String → String → List StyleProp
  | [], n, v, pr => [⟨n, v, pr⟩]
  | p :: ps, n, v, pr =>
    if n = p.name then ⟨n, v, pr⟩ :: ps else p :: updateStyleProp ps n v pr

/-- `style.setProperty(name, value, priority)`.  Per the CSSOM, setting the
empty string removes the declaration. -/
def setStyleProp (st : List StyleProp) (n v pr : String) : List StyleProp :=
  if v = "" then removeStyleProp st n else updateStyleProp st n v pr

theorem removeStyleProp_cons (p : StyleProp) (ps : List StyleProp) (n : String) :
    removeStyleProp (p :: ps) n =
      if n = p.name then removeStyleProp ps n
      else p :: removeStyleProp ps n := by
  by_cases h : n = p.name <;> simp [removeStyleProp, List.filter_cons, h]

theorem getStyleVal_update (st : List StyleProp) (n v pr m : String) :
    getStyleVal (updateStyleProp st n v pr) m =
      if m = n then v else getStyleVal st m := by
  induction st with
  | nil => simp [updateStyleProp, getStyleVal]
  | cons p ps ih =>
    simp only [updateStyleProp]
    by_cases hp : n = p.name
    · by_cases h : m = n
      · simp [hp, getStyleVal, h]
      · have h2 : ¬ m = p.name := fun hc => h (hc.trans hp.symm)
        simp [hp, getStyleVal, h, h2]
    · by_cases h : m = p.name
      · have h2 : ¬ m = n := fun hc => hp (hc.symm.trans h)
        have h3 : ¬ p.name = n := fun hc => hp hc.symm
        simp [hp, getStyleVal, h, h2, h3]
      · simp [hp, getStyleVal, h, ih]

theorem getStyleVal_remove (st : List StyleProp) (n m : String) :
    getStyleVal (removeStyleProp st n) m =
      if m = n then "" else getStyleVal st m := by
  induction st with
  | nil => simp [removeStyleProp, getStyleVal]
  | cons p ps ih =>
    rw [removeStyleProp_cons]
    by_cases hp : n = p.name
    · by_cases h : m = n
      · simpa [hp, getStyleVal, h] using ih
      · have h2 : ¬ m = p.name := fun hc => h (hc.trans hp.symm)
        simpa [hp, getStyleVal, h, h2] using ih
    · by_cases h : m = p.name
      · have h2 : ¬ m = n := fun hc => hp (hc.symm.trans h)
        have h3 : ¬ p.name = n := fun hc => hp hc.symm
        simp [hp, getStyleVal, h, h2, h3]
      · simp [hp, getStyleVal, h, ih]

theorem getStyleVal_set (st : List StyleProp) (n v pr m : String) :
    getStyleVal (setStyleProp st n v pr) m =
      if m = n then v else getStyleVal st m := by
  by_cases hv : v = ""
  · subst hv
    have hs : setStyleProp st n "" pr = removeStyleProp st n := by
      simp [setStyleProp]
    rw [hs, getStyleVal_remove]
  · simp [setStyleProp, hv, getStyleVal_update]

theorem getStylePrio_update (st : List StyleProp) (n v pr m : String) :
    getStylePrio (updateStyleProp st n v pr) m =
      if m = n then pr else getStylePrio st m := by
  induction st with
  | nil => simp [updateStyleProp, getStylePrio]
  | cons p ps ih =>
    simp only [updateStyleProp]
    by_cases hp : n = p.name
    · by_cases h : m = n
      · simp [hp, getStylePrio, h]
      · have h2 : ¬ m = p.name := fun hc => h (hc.trans hp.symm)
        simp [hp, getStylePrio, h, h2]
    · by_cases h : m = p.name
      · have h2 : ¬ m = n := fun hc => hp (hc.symm.trans h)
        have h3 : ¬ p.name = n := fun hc => hp hc.symm
        simp [hp, getStylePrio, h, h2, h3]
      · simp [hp, getStylePrio, h, ih]

theorem getStylePrio_remove (st : List StyleProp) (n m : String) :
    getStylePrio (removeStyleProp st n) m =
      if m = n then "" else getStylePrio st m := by
  induction st with
  | nil => simp [removeStyleProp, getStylePrio]
  | cons p ps ih =>
    rw [removeStyleProp_cons]
    by_cases hp : n = p.name
    · by_cases h : m = n
      · simpa [hp, getStylePrio, h] using ih
      · have h2 : ¬ m = p.name := fun hc => h (hc.trans hp.symm)
        simpa [hp, getStylePrio, h, h2] using ih
    · by_cases h : m = p.name
      · have h2 : ¬ m = n := fun hc => hp (hc.symm.trans h)
        have h3 : ¬ p.name = n := fun hc => hp hc.symm
        simp [hp, getStylePrio, h, h2, h3]
      · simp [hp, getStylePrio, h, ih]

theorem getStylePrio_set (st : List StyleProp) (n v pr m : String) :
    getStylePrio (setStyleProp st n v pr) m =
      if m = n then (if v = "" then "" else pr) else getStylePrio st m := by
  by_cases hv : v = ""
  · simp [setStyleProp, hv, getStylePrio_remove]
  · simp [setStyleProp, hv, getStylePrio_update]

/-- Attribute list lookup, `getAttribute`: `none` models a `null` return. -/
def getAttrL : List (String × String) → String → Option String
  | [], _ => none
  | a :: as_, n => if n = a.1 then some a.2 else getAttrL as_ n

/-- `setAttribute`: replace in place or append.  Unlike `setProperty`, an
empty value keeps the attribute present (with value `""`). -/
def setAttrL : List (String × String) → String → String → List (String × String)
  | [], n, v => [(n, v)]
  | a :: as_, n, v => if n = a.1 then (n, v) :: as_ else a :: setAttrL as_ n v

theorem getAttrL_set (as_ : List (String × String)) (n v m : String) :
    getAttrL (setAttrL as_ n v) m =
      if m = n then some v else getAttrL as_ m := by
  induction as_ with
  | nil => simp [setAttrL, getAttrL]
  | cons a as_ ih =>
    simp only [setAttrL]
    by_cases hp : n = a.1
    · by_cases h : m = n
      · simp [hp, getAttrL, h]
      · have h2 : ¬ m = a.1 := fun hc => h (hc.trans hp.symm)
        simp [hp, getAttrL, h, h2]
    · by_cases h : m = a.1
      · have h2 : ¬ m = n := fun hc => hp (hc.symm.trans h)
        have h3 : ¬ a.1 = n := fun hc => hp hc.symm
        simp [hp, getAttrL, h, h2, h3]
      · simp [hp, getAttrL, h, ih]

/-- A 2D affine matrix `[a c e; b d f]`, the model of `DOMMatrix` for the
CSS transforms handled by `cloneScrollPosition`.  Entries are exact
rationals; `DOMMatrix` itself uses binary floating point, which only
differs by rounding of the arithmetic modelled here. -/
structure Mat2D where
  a : Rat
  b : Rat
  c : Rat
  d : Rat
  e : Rat
  f : Rat
deriving DecidableEq, Repr

/-- `DOMMatrix.translateSelf(tx, ty)` restricted to 2D: post-multiply by a
translation, so `e` gains `a*tx + c*ty` and `f` gains `b*tx + d*ty`. -/
def Mat2D.translateSelf (m : Mat2D) (tx ty : Rat) : Mat2D :=
  { m with e := m.a * tx + m.c * ty + m.e, f := m.b * tx + m.d * ty + m.f }

/-- The element classes the source dispatches on with `isInstanceOfElement`:
`HTMLCanvasElement`, `HTMLVideoElement`, `HTMLIFrameElement`,
`HTMLTextAreaElement`, `HTMLInputElement`, `HTMLSelectElement`,
`HTMLImageElement`, `SVGImageElement`; every other element is `generic`.
The classes are disjoint in the DOM, hence an enumeration. -/
inductive EKind where
  | canvas
  | video
  | iframe
  | textarea
  | input
  | selectEl
  | img
  | svgImage
  | generic
deriving DecidableEq, Repr

/-- The non-recursive state of an element read or written by the two source
files.  `value` is the live IDL `value` of form controls, `src`/`srcset`/
`loading` the `HTMLImageElement` state, `hrefBaseVal` the `href.baseVal` of
an `SVGImageElement`, `poster`/`currentSrc` the video state,
`canvasDataURL` the result `canvas.toDataURL()` would produce, and
`iframeThrows` models a `contentDocument` access that throws.  `isHTML`
records `instanceof HTMLElement` (false for SVG elements). -/
structure ElemInfo where
  tag : String
  isHTML : Bool
  kind : EKind
  attrs : List (String × String)
  style : List StyleProp
  value : String
  src : String
  srcset : String
  loading : String
  hrefBaseVal : String
  poster : String
  currentSrc : String
  canvasDataURL : String
  iframeThrows : Bool
  scrollTop : Rat
  scrollLeft : Rat
deriving DecidableEq, Repr

/-- A DOM node.  `iframeBody` is `some b` when `contentDocument?.body` is
accessible and non-null; `shadow` is the child list of an attached shadow
root; `assigned` the result of `assignedNodes()` for a slot; `children`
models `childNodes` (all node kinds, in order). -/
inductive DomNode where
  | element (info : ElemInfo) (iframeBody : Option DomNode)
      (shadow : Option (List DomNode)) (assigned : List DomNode)
      (children : List DomNode)
  | text (s : String)
  | comment (s : String)

namespace DomNode

def isElem : DomNode → Bool
  | element _ _ _ _ _ => true
  | _ => false

def infoOf : DomNode → Option ElemInfo
  | element i _ _ _ _ => some i
  | _ => none

def tagOf : DomNode → String
  | element i _ _ _ _ => i.tag
  | _ => ""

def kindOf : DomNode → EKind
  | element i _ _ _ _ => i.kind
  | _ => .generic

def attrsOf : DomNode → List (String × String)
  | element i _ _ _ _ => i.attrs
  | _ => []

def styleOf : DomNode → List StyleProp
  | element i _ _ _ _ => i.style
  | _ => []

def valueOf : DomNode → String
  | element i _ _ _ _ => i.value
  | _ => ""

def childNodes : DomNode → List DomNode
  | element _ _ _ _ cs => cs
  | _ => []

def iframeBodyOf : DomNode → Option DomNode
  | element _ ib _ _ _ => ib
  | _ => none

def shadowOf : DomNode → Option (List DomNode)
  | element _ _ sh _ _ => sh
  | _ => none

def assignedOf : DomNode → List DomNode
  | element _ _ _ asg _ => asg
  | _ => []

def iframeThrowsOf : DomNode → Bool
  | element i _ _ _ _ => i.iframeThrows
  | _ => false

def scrollTopOf : DomNode → Rat
  | element i _ _ _ _ => i.scrollTop
  | _ => 0

def scrollLeftOf : DomNode → Rat
  | element i _ _ _ _ => i.scrollLeft
  | _ => 0

/-- `getAttribute` on a node. -/
def getAttrOf (n : DomNode) (name : String) : Option String :=
  getAttrL n.attrsOf name

/-- `setAttribute` on a node (no-op on non-elements, which cannot occur at
the source's call sites). -/
def setAttrOf : DomNode → String → String → DomNode
  | element i ib sh asg cs, name, v =>
      element { i with attrs := setAttrL i.attrs name v } ib sh asg cs
  | n, _, _ => n

/-- Inline-style `getPropertyValue` on a node. -/
def styleValOf (n : DomNode) (name : String) : String :=
  getStyleVal n.styleOf name

/-- Inline-style `getPropertyPriority` on a node. -/
def stylePrioOf (n : DomNode) (name : String) : String :=
  getStylePrio n.styleOf name

/-- Inline-style `setProperty` on a node. -/
def setStyleOf : DomNode → String → String → String → DomNode
  | element i ib sh asg cs, name, v, pr =>
      element { i with style := setStyleProp i.style name v pr } ib sh asg cs
  | n, _, _, _ => n

/-- Replace the `childNodes` list. -/
def withChildNodes : DomNode → List DomNode → DomNode
  | element i ib sh asg _, cs => element i ib sh asg cs
  | n, _ => n

/-- `parent.appendChild(c)` (call sites only ever pass element parents). -/
def appendChild : DomNode → DomNode → DomNode
  | element i ib sh asg cs, c => element i ib sh asg (cs ++ [c])
  | n, _ => n

/-- `node.cloneNode(false)`: same tag, attributes (hence inline style) and
reflected element state, but no children; a fresh clone has no shadow
root, no slot assignment, and no accessible original iframe document, and
a detached clone is unscrolled. -/
def shallowClone : DomNode → DomNode
  | element i _ _ _ _ =>
      element { i with iframeThrows := false, scrollTop := 0, scrollLeft := 0 }
        none none [] []
  | n => n

theorem childNodes_appendChild (i : ElemInfo) (ib : Option DomNode)
    (sh : Option (List DomNode)) (asg cs : List DomNode) (c : DomNode) :
    (appendChild (element i ib sh asg cs) c).childNodes = cs ++ [c] := rfl

end DomNode

open DomNode

/-- `isInstanceOfElement(node, HTMLCanvasElement)` etc.: an element of the
matching class. -/
def isCanvasEl : DomNode → Bool
  | .element i _ _ _ _ => match i.kind with | .canvas => true | _ => false
  | _ => false

def isVideoEl : DomNode → Bool
  | .element i _ _ _ _ => match i.kind with | .video => true | _ => false
  | _ => false

def isIFrameEl : DomNode → Bool
  | .element i _ _ _ _ => match i.kind with | .iframe => true | _ => false
  | _ => false

def isTextAreaEl : DomNode → Bool
  | .element i _ _ _ _ => match i.kind with | .textarea => true | _ => false
  | _ => false

def isInputEl : DomNode → Bool
  | .element i _ _ _ _ => match i.kind with | .input => true | _ => false
  | _ => false

def isSelectEl : DomNode → Bool
  | .element i _ _ _ _ => match i.kind with | .selectEl => true | _ => false
  | _ => false

def isHTMLImageEl : DomNode → Bool
  | .element i _ _ _ _ => match i.kind with | .img => true | _ => false
  | _ => false

def isSVGImageEl : DomNode → Bool
  | .element i _ _ _ _ => match i.kind with | .svgImage => true | _ => false
  | _ => false

/-- `isInstanceOfElement(node, HTMLElement)`. -/
def isHTMLEl : DomNode → Bool
  | .element i _ _ _ _ => i.isHTML
  | _ => false

/-- Modelled from the spec: `isSupportedElement` (in the missing `util`
module) distinguishes Elements from non-element nodes, which the spec says
are "opaque, cloned verbatim without further processing". -/
def isSupportedElement (n : DomNode) : Bool := n.isElem

/-- `toUpperCase`, written over the character data (the same mapping as
`String.toUpper`, in a form the kernel evaluates). -/
def strToUpper (s : String) : String := ⟨s.data.map Char.toUpper⟩

/-- `isSlotElement`: `node.tagName?.toUpperCase() === 'SLOT'`. -/
def isSlotElement (n : DomNode) : Bool := strToUpper n.tagOf == "SLOT"

mutual

/-- The descendant elements of a node in document (preorder) order; this is
the search space of `element.querySelectorAll` (the node itself excluded). -/
def descElems : DomNode → List DomNode
  | .element _ _ _ _ cs => elemsOfList cs
  | _ => []

def elemsOfList : List DomNode → List DomNode
  | [] => []
  | n :: ns =>
      (if n.isElem then [n] else []) ++ descElems n ++ elemsOfList ns

end

/-- `clone.querySelectorAll('use')`: descendant elements with that tag. -/
def querySelectorAllTag (n : DomNode) (tag : String) : List DomNode :=
  (descElems n).filter (fun e => e.tagOf == tag)

/-- The id named by an id selector: `selId "#abc" = some "abc"`. -/
def selId (sel : String) : Option String :=
  match sel.data with
  | '#' :: rest => some ⟨rest⟩
  | _ => none

/-- `element.querySelector(sel)` for the id selectors (`"#some-id"`) that
`ensureSVGSymbols` reads out of `xlink:href` attributes; any other selector
shape is modelled as matching nothing. -/
def querySelector (n : DomNode) (sel : String) : Option DomNode :=
  match selId sel with
  | some i => (descElems n).find? (fun e => e.getAttrOf "id" == some i)
  | none => none

/-- `document.querySelector(sel)`: like `querySelector` but the search space
of the document object also contains the root element itself. -/
def docQuerySelector (doc : DomNode) (sel : String) : Option DomNode :=
  match selId sel with
  | some i =>
      ((if doc.isElem then [doc] else []) ++ descElems doc).find?
        (fun e => e.getAttrOf "id" == some i)
  | none => none

/-- The result of `window.getComputedStyle(node)` as the source consumes it:
the serialized `cssText`, the `transformOrigin` property, and per-property
values/priorities. -/
structure ComputedStyle where
  cssText : String
  transformOrigin : String
  props : List StyleProp

/-- The options/collaborator record the core consumes.  `filter` and
`patchScroll` are the caller options used by `clone-node.ts`; the rest are
the external collaborators, passed as oracles: `computed` is
`window.getComputedStyle`, `styleProperties` is `getStyleProperties`,
`parseCssText` the browser's parse of a `cssText` assignment,
`shrinkFontPx` the floating-point `font-size` reduction
(`Math.floor(parseFloat(v)) - 0.1` formatted back with a `px` suffix),
`pseudo` is `clonePseudoElements`, `parseMatrix`/`printMatrix` are `new
DOMMatrix(s)` and `DOMMatrix.toString()`, and `resolve` is
`resourceToDataURL` (the mime-type hint computed by `getMimeType` is
internal to that collaborator). -/
structure Options where
  filter : Option (DomNode → Bool)
  patchScroll : Bool
  doc : DomNode
  computed : DomNode → ComputedStyle
  styleProperties : DomNode → List String
  parseCssText : String → List StyleProp
  shrinkFontPx : String → String
  pseudo : DomNode → DomNode → DomNode
  parseMatrix : String → Mat2D
  printMatrix : Mat2D → String
  resolve : String → String

namespace DomNode

def srcOf : DomNode → String
  | element i _ _ _ _ => i.src
  | _ => ""

def srcsetOf : DomNode → String
  | element i _ _ _ _ => i.srcset
  | _ => ""

def loadingOf : DomNode → String
  | element i _ _ _ _ => i.loading
  | _ => ""

def hrefBaseValOf : DomNode → String
  | element i _ _ _ _ => i.hrefBaseVal
  | _ => ""

def posterOf : DomNode → String
  | element i _ _ _ _ => i.poster
  | _ => ""

def currentSrcOf : DomNode → String
  | element i _ _ _ _ => i.currentSrc
  | _ => ""

def canvasDataURLOf : DomNode → String
  | element i _ _ _ _ => i.canvasDataURL
  | _ => ""

def setSrc : DomNode → String → DomNode
  | element i ib sh asg cs, v => element { i with src := v } ib sh asg cs
  | n, _ => n

def setSrcset : DomNode → String → DomNode
  | element i ib sh asg cs, v => element { i with srcset := v } ib sh asg cs
  | n, _ => n

def setLoading : DomNode → String → DomNode
  | element i ib sh asg cs, v => element { i with loading := v } ib sh asg cs
  | n, _ => n

def setHrefBaseVal : DomNode → String → DomNode
  | element i ib sh asg cs, v => element { i with hrefBaseVal := v } ib sh asg cs
  | n, _ => n

end DomNode

/- ------------------------------------------------------------------
`embed-images.ts`
------------------------------------------------------------------ -/

/-- `embedProp(propName, node, options)`: if the inline style declares
`propName`, run its value through the CSS-URL rewriter (`embedResources`,
an external collaborator, passed as an oracle) and write it back with the
property's current priority, returning `true`; otherwise return `false`.
On a node without a style object (`node.style?.`) the value is falsy and
nothing happens. -/
def embedProp (embedResources : String → String) (propName : String)
    (node : DomNode) : DomNode × Bool :=
  let propValue := node.styleValOf propName
  if propValue ≠ "" then
    let cssString := embedResources propValue
    (node.setStyleOf propName cssString (node.stylePrioOf propName), true)
  else (node, false)

/-- `embedBackground(clonedNode, options)`: try the `background` shorthand
first and only fall back to `background-image` when it was absent; then the
same for `mask` versus `mask-image`. -/
def embedBackground (embedResources : String → String) (node : DomNode) :
    DomNode :=
  let r1 := embedProp embedResources "background" node
  let n2 := if r1.2 then r1.1 else (embedProp embedResources "background-image" r1.1).1
  let r3 := embedProp embedResources "mask" n2
  if r3.2 then r3.1 else (embedProp embedResources "mask-image" r3.1).1

/-- `embedImageNode(clonedNode, options)`.  `isDataUrl` is the predicate
from the missing `dataurl` module and `resolve` is `resourceToDataURL`
(with its `getMimeType` hint folded in); both are oracles.  Returns the
updated node together with the list of URLs passed to the resolver.  The
`onload`/`onerror`/`decode` wiring only settles the surrounding promise
and touches no node state; the `loading === 'lazy'` promotion to `eager`
is node state and is modelled. -/
def embedImageNode (isDataUrl : String → Bool) (resolve : String → String)
    (node : DomNode) : DomNode × List String :=
  let isHTMLImageElement := isHTMLImageEl node
  let isSVGImageElement := isSVGImageEl node
  if !(isHTMLImageElement && !isDataUrl node.srcOf) &&
     !(isSVGImageElement && !isDataUrl node.hrefBaseValOf) then
    (node, [])
  else
    let url := if isHTMLImageElement then node.srcOf else node.hrefBaseValOf
    let dataURL := resolve url
    let node := if node.loadingOf == "lazy" then node.setLoading "eager" else node
    let node :=
      if isHTMLImageElement then (node.setSrcset "").setSrc dataURL
      else node.setHrefBaseVal dataURL
    (node, [url])

/- ------------------------------------------------------------------
`clone-node.ts`
------------------------------------------------------------------ -/

/-- A fresh element carrying only a tag, a namespace flag and a kind; the
baseline for elements the cloner creates itself. -/
def ElemInfo.plain (tag : String) (isHTML : Bool) (kind : EKind) : ElemInfo :=
  { tag := tag, isHTML := isHTML, kind := kind, attrs := [], style := [],
    value := "", src := "", srcset := "", loading := "", hrefBaseVal := "",
    poster := "", currentSrc := "", canvasDataURL := "", iframeThrows := false,
    scrollTop := 0, scrollLeft := 0 }

/-- Modelled from the spec: `createImage(url)` (missing `util` module)
produces an Image element "carrying that rasterized content as its
source". -/
def createImage (url : String) : DomNode :=
  .element { ElemInfo.plain "img" true .img with src := url, attrs := [("src", url)] }
    none none [] []

/-- `cloneCanvasElement`: a blank canvas (`toDataURL() === 'data:,'`) falls
back to a shallow clone, otherwise the rasterized content becomes an
image.  `canvasDataURL` is the node-state model of what `toDataURL()`
returns. -/
def cloneCanvasElement (canvas : DomNode) : DomNode :=
  let dataURL := canvas.canvasDataURLOf
  if dataURL == "data:," then canvas.shallowClone
  else createImage dataURL

/-- `cloneVideoElement`: an actively loaded video (`currentSrc` non-empty)
is replaced by an image of its current frame (the canvas draw plus
`toDataURL`, modelled by the node's `canvasDataURL` state); otherwise the
poster is resolved to a data URL and becomes an image. -/
def cloneVideoElement (opts : Options) (video : DomNode) : DomNode :=
  if video.currentSrcOf ≠ "" then createImage video.canvasDataURLOf
  else createImage (opts.resolve video.posterOf)

/-- `cloneIFrameElement`: inside a `try`, an accessible non-null
`contentDocument.body` is recursively cloned as a root and substituted for
the iframe; a throwing access is swallowed by the `catch`; in both failure
shapes the fallback is `iframe.cloneNode(false)`.  `recN` is the recursive
`cloneNode` at the remaining fuel; its `none` (out of fuel) models a
computation that never settles and is propagated.  A completed root clone
is never `null` (theorem `cloneNode_root_not_null`), so the inner
`Option.getD` branch is unreachable. -/
def cloneIFrameElement (recN : DomNode → Bool → Option (Option DomNode))
    (iframe : DomNode) : Option DomNode :=
  if iframe.iframeThrowsOf then some iframe.shallowClone
  else
    match iframe.iframeBodyOf with
    | some b =>
        match recN b true with
        | none => none
        | some r => some (r.getD iframe.shallowClone)
    | none => some iframe.shallowClone

/-- `cloneSingleElement`: kind dispatch via `isInstanceOfElement`. -/
def cloneSingleElement (recN : DomNode → Bool → Option (Option DomNode))
    (opts : Options) (node : DomNode) : Option DomNode :=
  if isCanvasEl node then some (cloneCanvasElement node)
  else if isVideoEl node then some (cloneVideoElement opts node)
  else if isIFrameEl node then cloneIFrameElement recN node
  else some node.shallowClone

/-- `('shadowRoot' in nativeNode ? nativeNode.shadowRoot ?? nativeNode :
nativeNode).childNodes`; every element has the `shadowRoot` property. -/
def shadowRootOrSelfChildren (native : DomNode) : List DomNode :=
  match native.shadowOf with
  | some sr => sr
  | none => native.childNodes

/-- The body of the source's `children.reduce(...)` chain: clone each child
in order, appending each non-null clone; a child whose clone does not
complete makes the whole chain incomplete. -/
def cloneList (recN : DomNode → Bool → Option (Option DomNode)) :
    List DomNode → DomNode → Option DomNode
  | [], cloned => some cloned
  | child :: rest, cloned =>
    match recN child false with
    | none => none
    | some none => cloneList recN rest cloned
    | some (some c) => cloneList recN rest (cloned.appendChild c)

/-- The child-source selection at the top of `cloneChildren`, in the
source's priority order: slot assignment first, then an accessible iframe
body's children, else shadow-root or own children.  The iframe branch
reads `contentDocument` without a `try`, so a throwing access fails the
selection (modelled as `none`).  The slot branch's
`nativeNode.assignedNodes` truthiness test is on the method, which every
slot element has. -/
def resolvedChildren (native : DomNode) : Option (List DomNode) :=
  if isSlotElement native then some native.assignedOf
  else if isIFrameEl native then
    if native.iframeThrowsOf then none
    else
      match native.iframeBodyOf with
      | some b => some b.childNodes
      | none => some (shadowRootOrSelfChildren native)
  else some (shadowRootOrSelfChildren native)

/-- `cloneChildren(nativeNode, clonedNode, options)`: pick the child list,
return the cloned parent unchanged for videos or an empty list, otherwise
run the sequential reduce. -/
def cloneChildren (recN : DomNode → Bool → Option (Option DomNode))
    (native cloned : DomNode) : Option DomNode :=
  match resolvedChildren native with
  | none => none
  | some children =>
    if children.length == 0 || isVideoEl native then some cloned
    else cloneList recN children cloned

/-- `cloneCSSStyle(nativeNode, clonedNode, options)`: prefer copying the
whole serialized `cssText` plus `transformOrigin`; otherwise copy each
property from `getStyleProperties`, with the `font-size` reduction, the
iframe `display: inline → block` correction and the `d`-attribute
`path(...)` rewrite, preserving each property's priority.  A node whose
`style` object is missing is left alone. -/
def cloneCSSStyle (opts : Options) (native cloned : DomNode) : DomNode :=
  match cloned with
  | .element i ib sh asg cs =>
    let sourceStyle := opts.computed native
    if sourceStyle.cssText ≠ "" then
      let st := opts.parseCssText sourceStyle.cssText
      let st := setStyleProp st "transform-origin" sourceStyle.transformOrigin ""
      .element { i with style := st } ib sh asg cs
    else
      let st := (opts.styleProperties native).foldl (fun st name =>
        let value := getStyleVal sourceStyle.props name
        let value :=
          if name == "font-size" && value.endsWith "px" then
            opts.shrinkFontPx value
          else value
        let value :=
          if isIFrameEl native && name == "display" && value == "inline" then
            "block"
          else value
        let value :=
          if name == "d" && ((cloned.getAttrOf "d").getD "") ≠ "" then
            "path(" ++ (cloned.getAttrOf "d").getD "" ++ ")"
          else value
        setStyleProp st name value (getStylePrio sourceStyle.props name)) i.style
      .element { i with style := st } ib sh asg cs
  | _ => cloned

/-- `cloneInputValue`: a textarea's live value becomes the clone's content
(`innerHTML`, modelled as a single text child); an input's live value is
written to the `value` attribute. -/
def cloneInputValue (native cloned : DomNode) : DomNode :=
  let cloned :=
    if isTextAreaEl native then cloned.withChildNodes [.text native.valueOf]
    else cloned
  if isInputEl native then cloned.setAttrOf "value" native.valueOf
  else cloned

/-- The `Array.from(clonedSelect.children).find(...)` + `setAttribute`
step: mark the first element child whose `value` attribute equals the
native select's current value (`.children` contains only element
children, so non-element entries are scanned past). -/
def markSelected (v : String) : List DomNode → List DomNode
  | [] => []
  | c :: cs =>
    if c.isElem && (c.getAttrOf "value" == some v) then
      c.setAttrOf "selected" "" :: cs
    else c :: markSelected v cs

/-- `cloneSelectValue`: on a select element, add a `selected` attribute to
the first cloned option whose `value` attribute matches the original's
current value.  No existing `selected` attribute is removed. -/
def cloneSelectValue (native cloned : DomNode) : DomNode :=
  if isSelectEl native then
    cloned.withChildNodes (markSelected native.valueOf cloned.childNodes)
  else cloned

/-- The matrix surgery of `cloneScrollPosition` on one child: remember
`a`–`d`, reset them to the identity so rotation/skew cannot influence the
translation direction, `translateSelf(-scrollLeft, -scrollTop)`, then
restore `a`–`d`. -/
def patchTransformMatrix (m : Mat2D) (scrollLeft scrollTop : Rat) : Mat2D :=
  let a := m.a
  let b := m.b
  let c := m.c
  let d := m.d
  let m := { m with a := 1, b := 0, c := 0, d := 1 }
  let m := m.translateSelf (-scrollLeft) (-scrollTop)
  { m with a := a, b := b, c := c, d := d }

/-- `cloneScrollPosition(nativeNode, clonedNode)`: nothing happens for an
unscrolled element; otherwise every element child of the clone (the
`.children` collection holds exactly the element children; the
`!child.children` guard only skips non-elements) has its `style.transform`
re-written through the matrix patch.  The property assignment
`child.style.transform = ...` carries no priority. -/
def cloneScrollPosition (opts : Options) (native cloned : DomNode) : DomNode :=
  if native.scrollTopOf = 0 ∧ native.scrollLeftOf = 0 then cloned
  else
    cloned.withChildNodes (cloned.childNodes.map (fun child =>
      if child.isElem then
        let transform := child.styleValOf "transform"
        let matrix := opts.parseMatrix transform
        let matrix := patchTransformMatrix matrix native.scrollLeftOf native.scrollTopOf
        child.setStyleOf "transform" (opts.printMatrix matrix) ""
      else child))

/-- `decorate(nativeNode, clonedNode, options)`. -/
def decorate (opts : Options) (native cloned : DomNode) : DomNode :=
  let cloned := cloneCSSStyle opts native cloned
  if isHTMLEl native && isHTMLEl cloned then
    let cloned := cloneInputValue native cloned
    let cloned := cloneSelectValue native cloned
    let cloned := opts.pseudo native cloned
    if opts.patchScroll then cloneScrollPosition opts native cloned else cloned
  else cloned

/-- Assoc-list lookup keyed by strings; the model of `processedDefs[id]`. -/
def lookupKey {α : Type} : List (String × α) → String → Option α
  | [], _ => none
  | a :: as_, n => if n = a.1 then some a.2 else lookupKey as_ n

/-- The `for` loop of `ensureSVGSymbols`: walk the `<use>` list in document
order; an entry qualifies when its `xlink:href` is present and non-empty
(`if (id)`), no element in the clone already has that id, the document has
a matching definition, and the id was not already processed; a qualifying
definition is cloned as a root and recorded under its id.  The source's
`(await cloneNode(...))!` would store `null` and crash later; a root clone
is never `null`, and that unreachable branch is modelled as a failure. -/
def collectDefs (recN : DomNode → Bool → Option (Option DomNode))
    (opts : Options) (clone : DomNode) :
    List DomNode → List (String × DomNode) → Option (List (String × DomNode))
  | [], processedDefs => some processedDefs
  | use :: rest, processedDefs =>
    match use.getAttrOf "xlink:href" with
    | some id =>
      if id ≠ "" then
        match docQuerySelector opts.doc id with
        | some definition =>
          if (querySelector clone id).isNone && (lookupKey processedDefs id).isNone then
            match recN definition true with
            | none => none
            | some none => none
            | some (some c) =>
                collectDefs recN opts clone rest (processedDefs ++ [(id, c)])
          else collectDefs recN opts clone rest processedDefs
        | none => collectDefs recN opts clone rest processedDefs
      else collectDefs recN opts clone rest processedDefs
    | none => collectDefs recN opts clone rest processedDefs

/-- The namespace string used by `ensureSVGSymbols` (the XHTML namespace,
as in the source). -/
def xhtmlNS : String := "http://www.w3.org/1999/xhtml"

/-- The synthetic container `ensureSVGSymbols` appends: an `svg` element
(created in the XHTML namespace) with an `xmlns` attribute, positioned
absolutely with zero size, hidden, holding one `defs` wrapper with the
collected definitions. -/
def defsContainer (nodes : List DomNode) : DomNode :=
  let style := setStyleProp [] "position" "absolute" ""
  let style := setStyleProp style "width" "0" ""
  let style := setStyleProp style "height" "0" ""
  let style := setStyleProp style "overflow" "hidden" ""
  let style := setStyleProp style "display" "none" ""
  let defs : DomNode :=
    .element (ElemInfo.plain "defs" true .generic) none none [] nodes
  .element { ElemInfo.plain "svg" true .generic with
      attrs := [("xmlns", xhtmlNS)], style := style }
    none none [] [defs]

/-- `ensureSVGSymbols(clone, options)`: nothing happens without `<use>`
descendants; otherwise run the collection loop and, if any definitions
were collected, append the synthetic hidden container to the clone. -/
def ensureSVGSymbols (recN : DomNode → Bool → Option (Option DomNode))
    (opts : Options) (clone : DomNode) : Option DomNode :=
  let uses := querySelectorAllTag clone "use"
  if uses.length == 0 then some clone
  else
    match collectDefs recN opts clone uses [] with
    | none => none
    | some processedDefs =>
      let nodes := processedDefs.map (·.2)
      if nodes.length ≠ 0 then some (clone.appendChild (defsContainer nodes))
      else some clone

/-- `!isRoot && options.filter && !options.filter(node)`. -/
def filterRejects (opts : Options) (node : DomNode) : Bool :=
  match opts.filter with
  | some f => !f node
  | none => false

/-- `cloneNode(node, options, isRoot)`: the filter gate (skipped for the
root), the verbatim shallow copy for non-element nodes, then the
`cloneSingleElement → cloneChildren → decorate → ensureSVGSymbols`
pipeline.  Fuel bounds the recursion depth (the real code can diverge on a
self-referencing symbol definition); `none` is non-completion, `some none`
is the `null` of a filtered-out node, `some (some c)` a finished clone. -/
def cloneNode (opts : Options) : Nat → DomNode → Bool → Option (Option DomNode)
  | 0, _, _ => none
  | fuel + 1, node, isRoot =>
    if !isRoot && filterRejects opts node then some none
    else if !(isSupportedElement node) then some (some node.shallowClone)
    else
      match cloneSingleElement (fun n r => cloneNode opts fuel n r) opts node with
      | none => none
      | some c1 =>
        match cloneChildren (fun n r => cloneNode opts fuel n r) node c1 with
        | none => none
        | some c2 =>
          let c3 := decorate opts node c2
          match ensureSVGSymbols (fun n r => cloneNode opts fuel n r) opts c3 with
          | none => none
          | some c4 => some (some c4)

/- ------------------------------------------------------------------
Timed model of the sequential child-cloning fold
------------------------------------------------------------------ -/

/-- One child's record in the timed model of the sequential reduce: the
instants at which its clone started and settled, and the clone's result
(`none` for a filtered-out child). -/
structure CloneEvent where
  start : Nat
  finish : Nat
  result : Option DomNode

/-- The timed semantics of the `children.reduce((deferred, child) => ...)`
chain in `cloneChildren`.  `cloneChild c` returns the latency of cloning
`c` together with its result, so an arbitrary latency can be assigned to
every child.  The chain awaits each deferred before cloning the next
child, so a child's clone starts exactly when its predecessor's handler
settles; a non-null result is appended at the child's own finish instant. -/
def timedReduce (cloneChild : DomNode → Nat × Option DomNode) :
    List DomNode → DomNode → Nat → DomNode × List CloneEvent × Nat
  | [], cloned, t => (cloned, [], t)
  | child :: rest, cloned, t =>
    let r := cloneChild child
    let tDone := t + r.1
    let cloned' :=
      match r.2 with
      | some clonedChild => cloned.appendChild clonedChild
      | none => cloned
    let restRes := timedReduce cloneChild rest cloned' tDone
    (restRes.1, ⟨t, tDone, r.2⟩ :: restRes.2.1, restRes.2.2)

/-- The timed semantics of `cloneChildren` itself: the same child-source
selection and early returns, with the reduce replaced by its timed model. -/
def cloneChildrenTimed (cloneChild : DomNode → Nat × Option DomNode)
    (native cloned : DomNode) (t0 : Nat) :
    Option (DomNode × List CloneEvent × Nat) :=
  match resolvedChildren native with
  | none => none
  | some children =>
    if children.length == 0 || isVideoEl native then some (cloned, [], t0)
    else some (timedReduce cloneChild children cloned t0)

/- ------------------------------------------------------------------
Characterisation helpers used in theorem statements
------------------------------------------------------------------ -/

/-- Whether one `<use>` element qualifies for collection in
`ensureSVGSymbols`, independently of the deduplication state: its
`xlink:href` is present and non-empty, the document has a matching
definition, and the clone does not already contain the id. -/
def useQualifies (opts : Options) (clone : DomNode) (use : DomNode) : Bool :=
  match use.getAttrOf "xlink:href" with
  | some id =>
      id ≠ "" && (docQuerySelector opts.doc id).isSome &&
        (querySelector clone id).isNone
  | none => false

/-- The ids the `ensureSVGSymbols` loop collects, in first-occurrence
order, given the ids already `seen`: the pure characterisation of the
keys of `processedDefs`. -/
def qualIds (opts : Options) (clone : DomNode) :
    List DomNode → List String → List String
  | [], _ => []
  | use :: rest, seen =>
    match use.getAttrOf "xlink:href" with
    | some id =>
      if id ≠ "" then
        match docQuerySelector opts.doc id with
        | some _ =>
          if (querySelector clone id).isNone && !(seen.contains id) then
            id :: qualIds opts clone rest (seen ++ [id])
          else qualIds opts clone rest seen
        | none => qualIds opts clone rest seen
      else qualIds opts clone rest seen
    | none => qualIds opts clone rest seen

/- ------------------------------------------------------------------
Supporting lemmas
------------------------------------------------------------------ -/

/-- A concrete data-URL test used only to instantiate oracle parameters in
witnesses (written over the character data so that it evaluates by
`decide`). -/
def isDataUrl0 (u : String) : Bool := u.data.take 5 == "data:".data

/-- A concrete resolver for witnesses: always returns a fixed data URL. -/
def resolve0 (_ : String) : String := "data:ok"

theorem embedImageNode_noop_eq (isDataUrl : String → Bool)
    (resolve : String → String) (node : DomNode)
    (hA : (isHTMLImageEl node && !isDataUrl node.srcOf) = false)
    (hB : (isSVGImageEl node && !isDataUrl node.hrefBaseValOf) = false) :
    embedImageNode isDataUrl resolve node = (node, []) := by
  simp [embedImageNode, hA, hB]

theorem embedImageNode_html_eq (isDataUrl : String → Bool)
    (resolve : String → String) (i : ElemInfo) (ib : Option DomNode)
    (sh : Option (List DomNode)) (asg cs : List DomNode)
    (hk : i.kind = EKind.img) (hd : isDataUrl i.src = false) :
    embedImageNode isDataUrl resolve (.element i ib sh asg cs) =
      (.element { i with
          loading := if i.loading == "lazy" then "eager" else i.loading,
          srcset := "", src := resolve i.src } ib sh asg cs, [i.src]) := by
  by_cases hl : (i.loading == "lazy") = true <;>
    simp [embedImageNode, isHTMLImageEl, isSVGImageEl, hk, hd, hl,
      DomNode.srcOf, DomNode.hrefBaseValOf, DomNode.loadingOf,
      DomNode.setLoading, DomNode.setSrcset, DomNode.setSrc]

theorem embedImageNode_svg_eq (isDataUrl : String → Bool)
    (resolve : String → String) (i : ElemInfo) (ib : Option DomNode)
    (sh : Option (List DomNode)) (asg cs : List DomNode)
    (hk : i.kind = EKind.svgImage) (hd : isDataUrl i.hrefBaseVal = false) :
    embedImageNode isDataUrl resolve (.element i ib sh asg cs) =
      (.element { i with
          loading := if i.loading == "lazy" then "eager" else i.loading,
          hrefBaseVal := resolve i.hrefBaseVal } ib sh asg cs,
        [i.hrefBaseVal]) := by
  by_cases hl : (i.loading == "lazy") = true <;>
    simp [embedImageNode, isHTMLImageEl, isSVGImageEl, hk, hd, hl,
      DomNode.srcOf, DomNode.hrefBaseValOf, DomNode.loadingOf,
      DomNode.setLoading, DomNode.setSrcset, DomNode.setHrefBaseVal]

theorem isElem_of_styleValOf_ne (n : DomNode) (p : String)
    (h : n.styleValOf p ≠ "") : n.isElem = true := by
  cases n with
  | element i ib sh asg cs => rfl
  | text s => simp [DomNode.styleValOf, DomNode.styleOf, getStyleVal] at h
  | comment s => simp [DomNode.styleValOf, DomNode.styleOf, getStyleVal] at h

theorem isElem_setStyleOf (n : DomNode) (name v pr : String) :
    (n.setStyleOf name v pr).isElem = n.isElem := by
  cases n <;> rfl

theorem styleValOf_setStyleOf (n : DomNode) (name v pr m : String)
    (h : n.isElem = true) :
    (n.setStyleOf name v pr).styleValOf m =
      if m = name then v else n.styleValOf m := by
  cases n with
  | element i ib sh asg cs =>
    simp [DomNode.setStyleOf, DomNode.styleValOf, DomNode.styleOf, getStyleVal_set]
  | text s => simp [DomNode.isElem] at h
  | comment s => simp [DomNode.isElem] at h

theorem stylePrioOf_setStyleOf (n : DomNode) (name v pr m : String)
    (h : n.isElem = true) :
    (n.setStyleOf name v pr).stylePrioOf m =
      if m = name then (if v = "" then "" else pr) else n.stylePrioOf m := by
  cases n with
  | element i ib sh asg cs =>
    simp [DomNode.setStyleOf, DomNode.stylePrioOf, DomNode.styleOf, getStylePrio_set]
  | text s => simp [DomNode.isElem] at h
  | comment s => simp [DomNode.isElem] at h

theorem embedProp_present (rw' : String → String) (p : String) (n : DomNode)
    (h : n.styleValOf p ≠ "") :
    embedProp rw' p n =
      (n.setStyleOf p (rw' (n.styleValOf p)) (n.stylePrioOf p), true) := by
  simp [embedProp, h]

theorem embedProp_absent (rw' : String → String) (p : String) (n : DomNode)
    (h : n.styleValOf p = "") :
    embedProp rw' p n = (n, false) := by
  simp [embedProp, h]

/-- The `embedProp a / else embedProp b` step `embedBackground` performs
twice; factored out for the proofs. -/
def embedPropPair (rw' : String → String) (a b : String) (node : DomNode) :
    DomNode :=
  let r1 := embedProp rw' a node
  if r1.2 then r1.1 else (embedProp rw' b r1.1).1

theorem embedBackground_eq_pairs (rw' : String → String) (node : DomNode) :
    embedBackground rw' node =
      embedPropPair rw' "mask" "mask-image"
        (embedPropPair rw' "background" "background-image" node) := rfl

theorem embedPropPair_spec (rw' : String → String) (a b : String)
    (node : DomNode) (hab : a ≠ b) :
    (node.styleValOf a ≠ "" →
       (embedPropPair rw' a b node).styleValOf a = rw' (node.styleValOf a) ∧
       (embedPropPair rw' a b node).styleValOf b = node.styleValOf b ∧
       (embedPropPair rw' a b node).stylePrioOf a =
         (if rw' (node.styleValOf a) = "" then "" else node.stylePrioOf a) ∧
       (embedPropPair rw' a b node).stylePrioOf b = node.stylePrioOf b) ∧
    (node.styleValOf a = "" →
       (embedPropPair rw' a b node).styleValOf a = "" ∧
       (node.styleValOf b ≠ "" →
         (embedPropPair rw' a b node).styleValOf b = rw' (node.styleValOf b) ∧
         (embedPropPair rw' a b node).stylePrioOf b =
           (if rw' (node.styleValOf b) = "" then "" else node.stylePrioOf b)) ∧
       (node.styleValOf b = "" →
         (embedPropPair rw' a b node).styleValOf b = "")) ∧
    (∀ m, m ≠ a → m ≠ b →
       (embedPropPair rw' a b node).styleValOf m = node.styleValOf m ∧
       (embedPropPair rw' a b node).stylePrioOf m = node.stylePrioOf m) := by
  by_cases ha : node.styleValOf a = ""
  · have hstep : embedPropPair rw' a b node = (embedProp rw' b node).1 := by
      simp [embedPropPair, embedProp_absent rw' a node ha]
    by_cases hb : node.styleValOf b = ""
    · have hout : embedPropPair rw' a b node = node := by
        rw [hstep, embedProp_absent rw' b node hb]
      rw [hout]
      exact ⟨fun hc => absurd ha hc, fun _ => ⟨ha, fun hc => absurd hb hc,
        fun _ => hb⟩, fun m _ _ => ⟨rfl, rfl⟩⟩
    · have hel : node.isElem = true := isElem_of_styleValOf_ne node b hb
      have hout : embedPropPair rw' a b node =
          node.setStyleOf b (rw' (node.styleValOf b)) (node.stylePrioOf b) := by
        rw [hstep, embedProp_present rw' b node hb]
      rw [hout]
      have hba : b ≠ a := fun hc => hab hc.symm
      refine ⟨fun hc => absurd ha hc, fun _ => ⟨?_, fun _ => ⟨?_, ?_⟩, fun hc => absurd hc hb⟩,
        fun m hma hmb => ⟨?_, ?_⟩⟩
      · rw [styleValOf_setStyleOf node b _ _ a hel, if_neg hab, ha]
      · rw [styleValOf_setStyleOf node b _ _ b hel, if_pos rfl]
      · rw [stylePrioOf_setStyleOf node b _ _ b hel, if_pos rfl]
      · rw [styleValOf_setStyleOf node b _ _ m hel, if_neg hmb]
      · rw [stylePrioOf_setStyleOf node b _ _ m hel, if_neg hmb]
  · have hel : node.isElem = true := isElem_of_styleValOf_ne node a ha
    have hout : embedPropPair rw' a b node =
        node.setStyleOf a (rw' (node.styleValOf a)) (node.stylePrioOf a) := by
      simp [embedPropPair, embedProp_present rw' a node ha]
    rw [hout]
    refine ⟨fun _ => ⟨?_, ?_, ?_, ?_⟩, fun hc => absurd hc ha, fun m hma hmb => ⟨?_, ?_⟩⟩
    · rw [styleValOf_setStyleOf node a _ _ a hel, if_pos rfl]
    · rw [styleValOf_setStyleOf node a _ _ b hel, if_neg (fun hc => hab hc.symm)]
    · rw [stylePrioOf_setStyleOf node a _ _ a hel, if_pos rfl]
    · rw [stylePrioOf_setStyleOf node a _ _ b hel, if_neg (fun hc => hab hc.symm)]
    · rw [styleValOf_setStyleOf node a _ _ m hel, if_neg hma]
    · rw [stylePrioOf_setStyleOf node a _ _ m hel, if_neg hma]

/- ------------------------------------------------------------------
Claim theorems
------------------------------------------------------------------ -/

theorem isElem_appendChild (n c : DomNode) :
    (n.appendChild c).isElem = n.isElem := by cases n <;> rfl

theorem childNodes_appendChild_of_isElem (n c : DomNode) (h : n.isElem = true) :
    (n.appendChild c).childNodes = n.childNodes ++ [c] := by
  cases n with
  | element i ib sh asg cs => rfl
  | text s => simp [DomNode.isElem] at h
  | comment s => simp [DomNode.isElem] at h

theorem timedReduce_cons (f : DomNode → Nat × Option DomNode) (c : DomNode)
    (cs : List DomNode) (cloned : DomNode) (t : Nat) :
    (timedReduce f (c :: cs) cloned t).2.1 =
      ⟨t, t + (f c).1, (f c).2⟩ ::
        (timedReduce f cs
          (match (f c).2 with
           | some cc => cloned.appendChild cc
           | none => cloned) (t + (f c).1)).2.1 := rfl

theorem timedReduce_childNodes (f : DomNode → Nat × Option DomNode) :
    ∀ (cs : List DomNode) (cloned : DomNode) (t : Nat), cloned.isElem = true →
      (timedReduce f cs cloned t).1.childNodes =
        cloned.childNodes ++ cs.filterMap (fun c => (f c).2) := by
  intro cs
  induction cs with
  | nil => intro cloned t h; simp [timedReduce]
  | cons c cs ih =>
    intro cloned t h
    simp only [timedReduce]
    cases hr : (f c).2 with
    | none =>
      simp only [List.filterMap_cons, hr]
      exact ih cloned (t + (f c).1) h
    | some cc =>
      simp only [List.filterMap_cons, hr]
      rw [ih (cloned.appendChild cc) (t + (f c).1)
        (by rw [isElem_appendChild]; exact h)]
      rw [childNodes_appendChild_of_isElem cloned cc h]
      simp

theorem timedReduce_events_result (f : DomNode → Nat × Option DomNode) :
    ∀ (cs : List DomNode) (cloned : DomNode) (t : Nat),
      (timedReduce f cs cloned t).2.1.map CloneEvent.result =
        cs.map (fun c => (f c).2) := by
  intro cs
  induction cs with
  | nil => intro cloned t; simp [timedReduce]
  | cons c cs ih =>
    intro cloned t
    rw [timedReduce_cons]
    simp only [List.map_cons, List.map]
    rw [ih]

theorem timedReduce_sequential (f : DomNode → Nat × Option DomNode) :
    ∀ (cs : List DomNode) (cloned : DomNode) (t : Nat),
      ((timedReduce f cs cloned t).2.1).Chain'
        (fun e1 e2 => e2.start = e1.finish) := by
  intro cs
  induction cs with
  | nil => intro cloned t; simp [timedReduce]
  | cons c cs ih =>
    intro cloned t
    rw [timedReduce_cons, List.chain'_cons']
    constructor
    · intro y hy
      cases cs with
      | nil => simp [timedReduce] at hy
      | cons c2 cs2 =>
        rw [timedReduce_cons] at hy
        simp only [List.head?_cons, Option.mem_def, Option.some.injEq] at hy
        subst hy
        rfl
    · exact ih _ _

/-- C3: `embedBackground` rewrites the `background` shorthand when it has
a value and leaves `background-image` alone; only when `background` is
absent does it rewrite `background-image`; never both.  The rewritten
value is written back with the property's original priority (per the
CSSOM, writing back an empty rewritten value removes the declaration and
with it any priority).  The same exclusive pairing holds for `mask`
versus `mask-image`. -/
theorem embedBackground_exclusive (embedResources : String → String)
    (node : DomNode) :
    ((node.styleValOf "background" ≠ "" →
        (embedBackground embedResources node).styleValOf "background" =
          embedResources (node.styleValOf "background") ∧
        (embedBackground embedResources node).styleValOf "background-image" =
          node.styleValOf "background-image" ∧
        (embedBackground embedResources node).stylePrioOf "background" =
          (if embedResources (node.styleValOf "background") = "" then ""
           else node.stylePrioOf "background")) ∧
     (node.styleValOf "background" = "" →
        (embedBackground embedResources node).styleValOf "background" = "" ∧
        (node.styleValOf "background-image" ≠ "" →
          (embedBackground embedResources node).styleValOf "background-image" =
            embedResources (node.styleValOf "background-image") ∧
          (embedBackground embedResources node).stylePrioOf "background-image" =
            (if embedResources (node.styleValOf "background-image") = "" then ""
             else node.stylePrioOf "background-image")) ∧
        (node.styleValOf "background-image" = "" →
          (embedBackground embedResources node).styleValOf "background-image" = ""))) ∧
    ((node.styleValOf "mask" ≠ "" →
        (embedBackground embedResources node).styleValOf "mask" =
          embedResources (node.styleValOf "mask") ∧
        (embedBackground embedResources node).styleValOf "mask-image" =
          node.styleValOf "mask-image" ∧
        (embedBackground embedResources node).stylePrioOf "mask" =
          (if embedResources (node.styleValOf "mask") = "" then ""
           else node.stylePrioOf "mask")) ∧
     (node.styleValOf "mask" = "" →
        (embedBackground embedResources node).styleValOf "mask" = "" ∧
        (node.styleValOf "mask-image" ≠ "" →
          (embedBackground embedResources node).styleValOf "mask-image" =
            embedResources (node.styleValOf "mask-image") ∧
          (embedBackground embedResources node).stylePrioOf "mask-image" =
            (if embedResources (node.styleValOf "mask-image") = "" then ""
             else node.stylePrioOf "mask-image")) ∧
        (node.styleValOf "mask-image" = "" →
          (embedBackground embedResources node).styleValOf "mask-image" = ""))) := by
  rw [embedBackground_eq_pairs]
  have P1 := embedPropPair_spec embedResources "background" "background-image"
    node (by decide)
  have P2 := embedPropPair_spec embedResources "mask" "mask-image"
    (embedPropPair embedResources "background" "background-image" node) (by decide)
  obtain ⟨P1a, P1b, P1f⟩ := P1
  obtain ⟨P2a, P2b, P2f⟩ := P2
  have Fbg := P2f "background" (by decide) (by decide)
  have Fbgi := P2f "background-image" (by decide) (by decide)
  have Fmk := P1f "mask" (by decide) (by decide)
  have Fmki := P1f "mask-image" (by decide) (by decide)
  constructor
  · constructor
    · intro h
      have h1 := P1a h
      exact ⟨Fbg.1.trans h1.1, Fbgi.1.trans h1.2.1, Fbg.2.trans h1.2.2.1⟩
    · intro h
      have h1 := P1b h
      refine ⟨Fbg.1.trans h1.1, ?_, ?_⟩
      · intro hbi
        have h2 := h1.2.1 hbi
        exact ⟨Fbgi.1.trans h2.1, Fbgi.2.trans h2.2⟩
      · intro hbi
        exact Fbgi.1.trans (h1.2.2 hbi)
  · constructor
    · intro h
      have hm : (embedPropPair embedResources "background" "background-image"
          node).styleValOf "mask" ≠ "" := by rw [Fmk.1]; exact h
      have h1 := P2a hm
      refine ⟨?_, ?_, ?_⟩
      · rw [h1.1, Fmk.1]
      · rw [h1.2.1, Fmki.1]
      · rw [h1.2.2.1, Fmk.1, Fmk.2]
    · intro h
      have hm : (embedPropPair embedResources "background" "background-image"
          node).styleValOf "mask" = "" := Fmk.1.trans h
      have h1 := P2b hm
      refine ⟨h1.1, ?_, ?_⟩
      · intro hmi
        have hmi' : (embedPropPair embedResources "background" "background-image"
            node).styleValOf "mask-image" ≠ "" := by rw [Fmki.1]; exact hmi
        have h2 := h1.2.1 hmi'
        exact ⟨by rw [h2.1, Fmki.1], by rw [h2.2, Fmki.1, Fmki.2]⟩
      · intro hmi
        exact h1.2.2 (by rw [Fmki.1]; exact hmi)

/-- A concrete CSS-URL rewriter used in witnesses. -/
def rewriteW (s : String) : String := "R" ++ s

/-- A concrete, fully evaluable `Options` record for witnesses and
counterexamples: no filter, no scroll patching, a minimal document, and
trivial collaborator oracles. -/
def opts0 : Options where
  filter := none
  patchScroll := false
  doc := .element (ElemInfo.plain "html" true .generic) none none [] []
  computed := fun _ => ⟨"", "", []⟩
  styleProperties := fun _ => []
  parseCssText := fun _ => []
  shrinkFontPx := fun v => v
  pseudo := fun _ c => c
  parseMatrix := fun _ => ⟨1, 0, 0, 1, 0, 0⟩
  printMatrix := fun _ => "matrix()"
  resolve := fun _ => "data:ok"

theorem attrsOf_shallowClone (n : DomNode) :
    n.shallowClone.attrsOf = n.attrsOf := by cases n <;> rfl

theorem childNodes_shallowClone (n : DomNode) :
    n.shallowClone.childNodes = [] := by cases n <;> rfl

/-- A concrete styled element used in the C3 witness: a `background` with
`!important` priority and a `mask-image`, no `background-image`, no
`mask`. -/
def styledNode : DomNode :=
  .element { ElemInfo.plain "div" true .generic with
      style := [⟨"background", "url(x)", "important"⟩,
                ⟨"mask-image", "url(y)", ""⟩] } none none [] []

/-- C3 witness: on `styledNode`, the shorthand `background` is rewritten
with its priority kept and `background-image` stays absent, while the
absent `mask` falls back to rewriting `mask-image`. -/
theorem embedBackground_exclusive_witness :
    (embedBackground rewriteW styledNode).styleValOf "background" = "Rurl(x)" ∧
    (embedBackground rewriteW styledNode).styleValOf "background-image" = "" ∧
    (embedBackground rewriteW styledNode).stylePrioOf "background" = "important" ∧
    (embedBackground rewriteW styledNode).styleValOf "mask" = "" ∧
    (embedBackground rewriteW styledNode).styleValOf "mask-image" = "Rurl(y)" := by
  have T := embedBackground_exclusive rewriteW styledNode
  refine ⟨?_, ?_, ?_, ?_, ?_⟩
  · exact ((T.1.1 (by decide)).1).trans (by decide)
  · exact ((T.1.1 (by decide)).2.1).trans (by decide)
  · exact ((T.1.1 (by decide)).2.2).trans (by decide)
  · exact (T.2.2 (by decide)).1
  · exact (((T.2.2 (by decide)).2.1 (by decide)).1).trans (by decide)

/-- C2: `embedImageNode` is a no-op on any node that is neither an HTML
image element with a non-data-URL `src` nor an SVG image element with a
non-data-URL `href`; data-URL sources are never passed to the resolver;
and, whenever the resolver returns data URLs, a second run on the result
of a first run changes nothing and resolves nothing. -/
theorem embedImageNode_noop_idempotent (isDataUrl : String → Bool)
    (resolve : String → String) (node : DomNode) :
    (¬ (isHTMLImageEl node = true ∧ isDataUrl node.srcOf = false) →
     ¬ (isSVGImageEl node = true ∧ isDataUrl node.hrefBaseValOf = false) →
       embedImageNode isDataUrl resolve node = (node, [])) ∧
    (∀ u ∈ (embedImageNode isDataUrl resolve node).2, isDataUrl u = false) ∧
    ((∀ u, isDataUrl (resolve u) = true) →
       embedImageNode isDataUrl resolve
           (embedImageNode isDataUrl resolve node).1 =
         ((embedImageNode isDataUrl resolve node).1, [])) := by
  have hguard : ∀ (h1 : ¬ (isHTMLImageEl node = true ∧ isDataUrl node.srcOf = false))
      (h2 : ¬ (isSVGImageEl node = true ∧ isDataUrl node.hrefBaseValOf = false)),
      embedImageNode isDataUrl resolve node = (node, []) := by
    intro h1 h2
    have hA : (isHTMLImageEl node && !isDataUrl node.srcOf) = false := by
      cases hx : isHTMLImageEl node <;> cases hy : isDataUrl node.srcOf <;>
        simp_all
    have hB : (isSVGImageEl node && !isDataUrl node.hrefBaseValOf) = false := by
      cases hx : isSVGImageEl node <;> cases hy : isDataUrl node.hrefBaseValOf <;>
        simp_all
    exact embedImageNode_noop_eq isDataUrl resolve node hA hB
  refine ⟨hguard, ?_, ?_⟩
  · intro u hu
    by_cases hA : (isHTMLImageEl node && !isDataUrl node.srcOf) = true
    · rw [Bool.and_eq_true] at hA
      obtain ⟨hA1, hA2⟩ := hA
      rw [Bool.not_eq_true'] at hA2
      cases node with
      | element i ib sh asg cs =>
        have hk : i.kind = EKind.img := by
          cases hkk : i.kind <;> simp_all [isHTMLImageEl]
        rw [embedImageNode_html_eq isDataUrl resolve i ib sh asg cs hk hA2] at hu
        simp at hu
        subst hu
        exact hA2
      | text s => simp [isHTMLImageEl] at hA1
      | comment s => simp [isHTMLImageEl] at hA1
    · by_cases hB : (isSVGImageEl node && !isDataUrl node.hrefBaseValOf) = true
      · rw [Bool.and_eq_true] at hB
        obtain ⟨hB1, hB2⟩ := hB
        rw [Bool.not_eq_true'] at hB2
        cases node with
        | element i ib sh asg cs =>
          have hk : i.kind = EKind.svgImage := by
            cases hkk : i.kind <;> simp_all [isSVGImageEl]
          rw [embedImageNode_svg_eq isDataUrl resolve i ib sh asg cs hk hB2] at hu
          simp at hu
          subst hu
          exact hB2
        | text s => simp [isSVGImageEl] at hB1
        | comment s => simp [isSVGImageEl] at hB1
      · rw [Bool.not_eq_true] at hA hB
        rw [embedImageNode_noop_eq isDataUrl resolve node hA hB] at hu
        simp at hu
  · intro hres
    by_cases hA : (isHTMLImageEl node && !isDataUrl node.srcOf) = true
    · rw [Bool.and_eq_true] at hA
      obtain ⟨hA1, hA2⟩ := hA
      rw [Bool.not_eq_true'] at hA2
      cases node with
      | element i ib sh asg cs =>
        have hk : i.kind = EKind.img := by
          cases hkk : i.kind <;> simp_all [isHTMLImageEl]
        rw [embedImageNode_html_eq isDataUrl resolve i ib sh asg cs hk hA2]
        apply embedImageNode_noop_eq
        · simp [isHTMLImageEl, DomNode.srcOf, hk, hres]
        · simp [isSVGImageEl, hk]
      | text s => simp [isHTMLImageEl] at hA1
      | comment s => simp [isHTMLImageEl] at hA1
    · by_cases hB : (isSVGImageEl node && !isDataUrl node.hrefBaseValOf) = true
      · rw [Bool.and_eq_true] at hB
        obtain ⟨hB1, hB2⟩ := hB
        rw [Bool.not_eq_true'] at hB2
        cases node with
        | element i ib sh asg cs =>
          have hk : i.kind = EKind.svgImage := by
            cases hkk : i.kind <;> simp_all [isSVGImageEl]
          rw [embedImageNode_svg_eq isDataUrl resolve i ib sh asg cs hk hB2]
          apply embedImageNode_noop_eq
          · simp [isHTMLImageEl, hk]
          · simp [isSVGImageEl, DomNode.hrefBaseValOf, hk, hres]
        | text s => simp [isSVGImageEl] at hB1
        | comment s => simp [isSVGImageEl] at hB1
      · rw [Bool.not_eq_true] at hA hB
        rw [embedImageNode_noop_eq isDataUrl resolve node hA hB]
        exact embedImageNode_noop_eq isDataUrl resolve node hA hB

/-- C2 witness: a concrete HTML image with a data-URL source is untouched
and nothing is resolved; embedding a fresh image once and then again
changes nothing the second time. -/
theorem embedImageNode_noop_idempotent_witness :
    (embedImageNode isDataUrl0 resolve0
        (.element { ElemInfo.plain "img" true .img with src := "data:x" }
          none none [] []) =
      (.element { ElemInfo.plain "img" true .img with src := "data:x" }
        none none [] [], [])) ∧
    (embedImageNode isDataUrl0 resolve0
        (embedImageNode isDataUrl0 resolve0
            (.element { ElemInfo.plain "img" true .img with src := "http:a" }
              none none [] [])).1 =
      ((embedImageNode isDataUrl0 resolve0
          (.element { ElemInfo.plain "img" true .img with src := "http:a" }
            none none [] [])).1, [])) := by
  constructor
  · exact (embedImageNode_noop_idempotent _ _ _).1
      (by intro h; exact absurd h.2 (by decide))
      (by intro h; exact absurd h.1 (by decide))
  · exact (embedImageNode_noop_idempotent _ _ _).2.2
      (by intro u; exact (by decide : isDataUrl0 "data:ok" = true))

/-- C1: for an element with resolved children `cs` (not a video, `cs`
non-empty) the sequential asynchronous fold of `cloneChildren` clones the
children strictly in sequence — in the event list every clone starts
exactly when its predecessor's clone finished (`Chain'`), whatever
per-child latency `cloneChild` assigns — and the cloned parent's appended
children are exactly the non-null clone results in the original order
`cs`, independent of those latencies. -/
theorem cloneChildren_sequential_order
    (cloneChild : DomNode → Nat × Option DomNode) (native cloned : DomNode)
    (t0 : Nat) (cs : List DomNode)
    (hcs : resolvedChildren native = some cs) (hne : cs.length ≠ 0)
    (hv : isVideoEl native = false) (hel : cloned.isElem = true) :
    ∃ out evs tEnd,
      cloneChildrenTimed cloneChild native cloned t0 = some (out, evs, tEnd) ∧
      out.childNodes =
        cloned.childNodes ++ cs.filterMap (fun c => (cloneChild c).2) ∧
      evs.map CloneEvent.result = cs.map (fun c => (cloneChild c).2) ∧
      evs.Chain' (fun e1 e2 => e2.start = e1.finish) := by
  have h0 : (cs.length == 0) = false := by
    cases hL : cs.length with
    | zero => exact absurd hL hne
    | succ k => rfl
  refine ⟨(timedReduce cloneChild cs cloned t0).1,
    (timedReduce cloneChild cs cloned t0).2.1,
    (timedReduce cloneChild cs cloned t0).2.2, ?_, ?_, ?_, ?_⟩
  · simp [cloneChildrenTimed, hcs, h0, hv]
  · exact timedReduce_childNodes cloneChild cs cloned t0 hel
  · exact timedReduce_events_result cloneChild cs cloned t0
  · exact timedReduce_sequential cloneChild cs cloned t0

/-- A plain empty parent node used as the cloned target in witnesses. -/
def divW : DomNode := .element (ElemInfo.plain "div" true .generic) none none [] []

/-- Children for the C1 witness. -/
def childAW : DomNode := .element (ElemInfo.plain "a" true .generic) none none [] []

/-- Second child for the C1 witness. -/
def childBW : DomNode := .element (ElemInfo.plain "b" true .generic) none none [] []

/-- The C1 witness parent: a plain element with two children. -/
def parentW : DomNode :=
  .element (ElemInfo.plain "p" true .generic) none none [] [childAW, childBW]

/-- The C1 witness per-child cloner: the first child is slow (latency 7),
the second fast (latency 1); both clone to themselves. -/
def cloneChildW (n : DomNode) : Nat × Option DomNode :=
  (if n.tagOf == "a" then 7 else 1, some n)

/-- C1 witness: on the concrete two-child parent with uneven latencies the
fold still appends `[a, b]` in order and runs back-to-back. -/
theorem cloneChildren_sequential_order_witness :
    ∃ out evs tEnd,
      cloneChildrenTimed cloneChildW parentW divW 0 = some (out, evs, tEnd) ∧
      out.childNodes =
        divW.childNodes ++
          [childAW, childBW].filterMap (fun c => (cloneChildW c).2) ∧
      evs.map CloneEvent.result =
        [childAW, childBW].map (fun c => (cloneChildW c).2) ∧
      evs.Chain' (fun e1 e2 => e2.start = e1.finish) := by
  have hcs : resolvedChildren parentW = some [childAW, childBW] := rfl
  have hne : ([childAW, childBW] : List DomNode).length ≠ 0 := by decide
  have hv : isVideoEl parentW = false := by decide
  have hel : divW.isElem = true := by decide
  exact cloneChildren_sequential_order cloneChildW parentW divW 0
    [childAW, childBW] hcs hne hv hel

/-- C5: cloning an iframe whose nested document body is inaccessible
(the access throws, or `contentDocument?.body` is missing) does not
propagate the failure: `cloneIFrameElement` returns the shallow clone of
the iframe itself, which carries the iframe's own attributes and has zero
children.  Only when the body is accessible is it recursively cloned as a
root (`isRoot = true`) and substituted for the iframe. -/
theorem cloneIFrameElement_fallback
    (recN : DomNode → Bool → Option (Option DomNode)) (iframe : DomNode) :
    ((iframe.iframeThrowsOf = true ∨ iframe.iframeBodyOf = none) →
       cloneIFrameElement recN iframe = some iframe.shallowClone ∧
       iframe.shallowClone.attrsOf = iframe.attrsOf ∧
       iframe.shallowClone.childNodes = []) ∧
    (∀ b c, iframe.iframeThrowsOf = false → iframe.iframeBodyOf = some b →
       recN b true = some (some c) →
       cloneIFrameElement recN iframe = some c) := by
  constructor
  · intro h
    refine ⟨?_, attrsOf_shallowClone iframe, childNodes_shallowClone iframe⟩
    by_cases ht : iframe.iframeThrowsOf = true
    · simp [cloneIFrameElement, ht]
    · rcases h with h | h
      · exact absurd h ht
      · simp [cloneIFrameElement, ht, h]
  · intro b c ht hb hr
    simp [cloneIFrameElement, ht, hb, hr]

/-- A concrete accessible iframe body for the C5 witness. -/
def bodyW : DomNode := .element (ElemInfo.plain "body" true .generic) none none [] []

/-- A concrete iframe whose `contentDocument` access throws. -/
def iframeThrowW : DomNode :=
  .element { ElemInfo.plain "iframe" true .iframe with
      iframeThrows := true, attrs := [("id", "f")] } none none [] []

/-- A concrete iframe with an accessible body. -/
def iframeOkW : DomNode :=
  .element (ElemInfo.plain "iframe" true .iframe) (some bodyW) none [] []

/-- C5 witness: the throwing iframe degrades to its shallow clone (with
its attribute and no children); the accessible one is substituted by the
root clone of its body. -/
theorem cloneIFrameElement_fallback_witness :
    (cloneIFrameElement (fun n _ => some (some n)) iframeThrowW =
        some iframeThrowW.shallowClone ∧
     iframeThrowW.shallowClone.attrsOf = [("id", "f")] ∧
     iframeThrowW.shallowClone.childNodes = []) ∧
    cloneIFrameElement (fun n _ => some (some n)) iframeOkW = some bodyW := by
  constructor
  · have h := (cloneIFrameElement_fallback (fun n _ => some (some n))
      iframeThrowW).1 (Or.inl rfl)
    exact ⟨h.1, h.2.1.trans rfl, h.2.2⟩
  · exact (cloneIFrameElement_fallback (fun n _ => some (some n)) iframeOkW).2
      bodyW bodyW rfl rfl rfl

/-- C6: the filter gate of `cloneNode`.  A root clone is never the `null`
of a filtered-out node, whatever the filter (the gate tests `!isRoot`);
a non-root node the filter rejects yields `null` immediately, before any
of its subtree is processed; and in the sequential child fold a rejected
child is skipped entirely — the `null` is not appended, the fold simply
moves on to the remaining children. -/
theorem cloneNode_filter_behaviour (opts : Options) :
    (∀ fuel node, cloneNode opts fuel node true ≠ some none) ∧
    (∀ fuel node f, opts.filter = some f → f node = false →
       cloneNode opts (fuel + 1) node false = some none) ∧
    (∀ fuel node f rest cloned, opts.filter = some f → f node = false →
       cloneList (fun n r => cloneNode opts (fuel + 1) n r) (node :: rest) cloned
         = cloneList (fun n r => cloneNode opts (fuel + 1) n r) rest cloned) := by
  have part2 : ∀ fuel node f, opts.filter = some f → f node = false →
      cloneNode opts (fuel + 1) node false = some none := by
    intro fuel node f hf hnode
    simp [cloneNode, filterRejects, hf, hnode]
  refine ⟨?_, part2, ?_⟩
  · intro fuel node
    match fuel with
    | 0 => simp [cloneNode]
    | fuel + 1 =>
      simp only [cloneNode, Bool.not_true, Bool.false_and, Bool.false_eq_true,
        if_false]
      split
      · simp
      · split
        · simp
        · split
          · simp
          · split <;> simp
  · intro fuel node f rest cloned hf hnode
    have h2 := part2 fuel node f hf hnode
    simp [cloneList, h2]

/-- A filter that keeps only elements tagged `keep`. -/
def optsFilterW : Options :=
  { opts0 with filter := some (fun n => n.tagOf == "keep") }

/-- A node the witness filter rejects. -/
def skipW : DomNode := .element (ElemInfo.plain "skip" true .generic) none none [] []

/-- C6 witness: the rejected node clones to `null` as a non-root, still
clones as a root, and is skipped (nothing appended) by the child fold. -/
theorem cloneNode_filter_behaviour_witness :
    cloneNode optsFilterW 3 skipW false = some none ∧
    cloneNode optsFilterW 3 skipW true ≠ some none ∧
    cloneList (fun n r => cloneNode optsFilterW 3 n r) [skipW] divW = some divW := by
  refine ⟨?_, ?_, ?_⟩
  · exact (cloneNode_filter_behaviour optsFilterW).2.1 2 skipW _ rfl rfl
  · exact (cloneNode_filter_behaviour optsFilterW).1 3 skipW
  · exact ((cloneNode_filter_behaviour optsFilterW).2.2 2 skipW _ [] divW
      rfl rfl).trans rfl

theorem withChildNodes_self (n : DomNode) :
    n.withChildNodes n.childNodes = n := by cases n <;> rfl

theorem markSelected_of_no_match (v : String) :
    ∀ cs : List DomNode,
      (∀ c ∈ cs, (c.isElem && (c.getAttrOf "value" == some v)) = false) →
      markSelected v cs = cs := by
  intro cs
  induction cs with
  | nil => intro _; rfl
  | cons c cs ih =>
    intro h
    have hc := h c (List.mem_cons_self c cs)
    simp only [markSelected, hc, Bool.false_eq_true, if_false]
    rw [ih (fun x hx => h x (List.mem_cons_of_mem c hx))]

theorem markSelected_first_match (v : String) (c : DomNode) :
    ∀ (pre post : List DomNode),
      (∀ p ∈ pre, (p.isElem && (p.getAttrOf "value" == some v)) = false) →
      (c.isElem && (c.getAttrOf "value" == some v)) = true →
      markSelected v (pre ++ c :: post) =
        pre ++ c.setAttrOf "selected" "" :: post := by
  intro pre
  induction pre with
  | nil =>
    intro post _ hc
    simp [markSelected, hc]
  | cons p pre ih =>
    intro post h hc
    have hp := h p (List.mem_cons_self p pre)
    simp only [List.cons_append, markSelected, hp, Bool.false_eq_true, if_false]
    exact congrArg (fun l => p :: l)
      (ih post (fun x hx => h x (List.mem_cons_of_mem p hx)) hc)

/-- An option whose markup carried `selected` (value `a`), as the live DOM
keeps it even after the user selects another option. -/
def optionAW : DomNode :=
  .element { ElemInfo.plain "option" true .generic with
      attrs := [("value", "a"), ("selected", "")] } none none [] []

/-- An option with value `b` and no markup `selected`. -/
def optionBW : DomNode :=
  .element { ElemInfo.plain "option" true .generic with
      attrs := [("value", "b")] } none none [] []

/-- A live select whose current value is `b` while the markup `selected`
attribute sits on the option with value `a`. -/
def selectW : DomNode :=
  .element { ElemInfo.plain "select" true .selectEl with value := "b" }
    none none [] [optionAW, optionBW]

/-- The `value` attributes of the element children that carry a `selected`
attribute. -/
def selectedOptionValues (n : DomNode) : List String :=
  (n.childNodes.filter (fun c => (c.getAttrOf "selected").isSome)).map
    (fun c => (c.getAttrOf "value").getD "")

/-- C7 counterexample: cloning the select `selectW`, whose current value is
`"b"` while the markup `selected` attribute sits on the option with value
`"a"`, yields a clone in which BOTH options carry a `selected` attribute:
the shallow child clone copies the markup attribute of option `a` and
`cloneSelectValue` only adds `selected` to the matching option `b`,
removing nothing — refuting "no other cloned option carries a `selected`
attribute". -/
theorem cloneSelect_two_selected :
    (match cloneNode opts0 4 selectW true with
     | some (some c) => selectedOptionValues c
     | _ => []) = ["a", "b"] ∧
    selectW.valueOf = "b" ∧ ("a" : String) ≠ "b" := by
  refine ⟨by decide, by decide, by decide⟩

/-- C7 amended: cloning a select whose current value is `v` adds a
`selected` attribute to the FIRST cloned child option whose `value`
attribute equals `v` and leaves every other cloned child exactly as it
was — in particular an option whose markup already carried `selected`
keeps it, so the clone can contain further selected options; when no
child matches, the clone is unchanged. -/
theorem cloneSelectValue_first_match (native cloned : DomNode)
    (hsel : isSelectEl native = true) :
    ((∀ c ∈ cloned.childNodes,
        (c.isElem && (c.getAttrOf "value" == some native.valueOf)) = false) →
       cloneSelectValue native cloned = cloned) ∧
    (∀ pre c post, cloned.childNodes = pre ++ c :: post →
       (∀ p ∈ pre,
         (p.isElem && (p.getAttrOf "value" == some native.valueOf)) = false) →
       (c.isElem && (c.getAttrOf "value" == some native.valueOf)) = true →
       cloneSelectValue native cloned =
         cloned.withChildNodes (pre ++ c.setAttrOf "selected" "" :: post) ∧
       (c.setAttrOf "selected" "").getAttrOf "selected" = some "" ∧
       (∀ m, m ≠ "selected" →
         (c.setAttrOf "selected" "").getAttrOf m = c.getAttrOf m)) := by
  constructor
  · intro h
    rw [cloneSelectValue, if_pos hsel, markSelected_of_no_match _ _ h,
      withChildNodes_self]
  · intro pre c post hsplit hpre hc
    refine ⟨?_, ?_, ?_⟩
    · rw [cloneSelectValue, if_pos hsel, hsplit,
        markSelected_first_match _ c pre post hpre hc]
    · cases c with
      | element i ib sh asg cs =>
        simp [DomNode.setAttrOf, DomNode.getAttrOf, DomNode.attrsOf, getAttrL_set]
      | text s => simp [DomNode.isElem] at hc
      | comment s => simp [DomNode.isElem] at hc
    · intro m hm
      cases c with
      | element i ib sh asg cs =>
        simp [DomNode.setAttrOf, DomNode.getAttrOf, DomNode.attrsOf,
          getAttrL_set, hm]
      | text s => simp [DomNode.isElem] at hc
      | comment s => simp [DomNode.isElem] at hc

/-- C7 witness for the amended theorem: on the concrete select, the first
(and only) option valued `"b"` gains `selected`; the option valued `"a"`
is returned bit-for-bit unchanged, markup `selected` included. -/
theorem cloneSelectValue_first_match_witness :
    cloneSelectValue selectW selectW =
      selectW.withChildNodes
        ([optionAW] ++ optionBW.setAttrOf "selected" "" :: []) ∧
    (optionBW.setAttrOf "selected" "").getAttrOf "selected" = some "" ∧
    (optionBW.setAttrOf "selected" "").getAttrOf "value" = optionBW.getAttrOf "value" := by
  have h := (cloneSelectValue_first_match selectW selectW (by decide)).2
    [optionAW] optionBW [] rfl
    (by intro p hp
        simp only [List.mem_singleton] at hp
        subst hp
        decide)
    (by decide)
  exact ⟨h.1, h.2.1, h.2.2 "value" (by decide)⟩

/-- A scrolled parent (`scrollTop = 20`, `scrollLeft = 10`). -/
def scrolledW : DomNode :=
  .element { ElemInfo.plain "div" true .generic with
      scrollTop := 20, scrollLeft := 10 } none none [] []

/-- A childless element child with a recognisable transform. -/
def childlessW : DomNode :=
  .element { ElemInfo.plain "span" true .generic with
      style := [⟨"transform", "t0", ""⟩] } none none [] []

/-- The clone whose children `cloneScrollPosition` rewrites. -/
def clonedScrollW : DomNode :=
  .element (ElemInfo.plain "div" true .generic) none none [] [childlessW]

/-- C8 counterexample: under the scrolled parent, the element child that
has NO children of its own is not skipped — its `transform` is rewritten
(here from `"t0"` to the patched matrix string), refuting "children
without their own children are skipped".  Only non-element children
(text nodes, which have no `children` collection) are skipped. -/
theorem cloneScrollPosition_childless_rewritten :
    childlessW.childNodes = [] ∧
    childlessW.styleValOf "transform" = "t0" ∧
    ((cloneScrollPosition opts0 scrolledW clonedScrollW).childNodes.map
        (fun c => c.styleValOf "transform")) = ["matrix()"] ∧
    ("t0" : String) ≠ "matrix()" := by
  refine ⟨rfl, by decide, by decide, by decide⟩

/-- C8 amended: the matrix patch leaves the decomposed rotation/skew
entries `a`–`d` exactly as in the prior transform and offsets the
translation by `(-scrollLeft, -scrollTop)` computed with an identity
linear part; an unscrolled element is left entirely unchanged; and for a
scrolled element every ELEMENT child (with or without children of its
own) has its transform rewritten through the patch, while non-element
children (text nodes) are skipped. -/
theorem cloneScrollPosition_amended (opts : Options) (native cloned : DomNode) :
    (∀ (m : Mat2D) (sl st : Rat), patchTransformMatrix m sl st =
        ⟨m.a, m.b, m.c, m.d, m.e - sl, m.f - st⟩) ∧
    (native.scrollTopOf = 0 ∧ native.scrollLeftOf = 0 →
        cloneScrollPosition opts native cloned = cloned) ∧
    (¬(native.scrollTopOf = 0 ∧ native.scrollLeftOf = 0) →
        (cloneScrollPosition opts native cloned).childNodes =
          cloned.childNodes.map (fun child =>
            if child.isElem then
              child.setStyleOf "transform"
                (opts.printMatrix
                  (patchTransformMatrix
                    (opts.parseMatrix (child.styleValOf "transform"))
                    native.scrollLeftOf native.scrollTopOf)) ""
            else child)) := by
  refine ⟨?_, ?_, ?_⟩
  · intro m sl st
    simp [patchTransformMatrix, Mat2D.translateSelf, Mat2D.mk.injEq]
    constructor <;> ring
  · intro h
    rw [cloneScrollPosition, if_pos h]
  · intro h
    rw [cloneScrollPosition, if_neg h]
    cases cloned with
    | element i ib sh asg cs => rfl
    | text s => rfl
    | comment s => rfl

/-- C8 witness for the amended theorem: a concrete matrix keeps its
`a`–`d` entries and its translation moves by `(-10, -20)`; the unscrolled
parent changes nothing; the scrolled parent rewrites its element child
through the patch. -/
theorem cloneScrollPosition_amended_witness :
    patchTransformMatrix ⟨2, 3, 4, 5, 6, 7⟩ 10 20 = ⟨2, 3, 4, 5, -4, -13⟩ ∧
    cloneScrollPosition opts0 divW clonedScrollW = clonedScrollW ∧
    (cloneScrollPosition opts0 scrolledW clonedScrollW).childNodes =
      clonedScrollW.childNodes.map (fun child =>
        if child.isElem then
          child.setStyleOf "transform"
            (opts0.printMatrix
              (patchTransformMatrix
                (opts0.parseMatrix (child.styleValOf "transform"))
                scrolledW.scrollLeftOf scrolledW.scrollTopOf)) ""
        else child) := by
  refine ⟨?_, ?_, ?_⟩
  · refine ((cloneScrollPosition_amended opts0 divW clonedScrollW).1
      ⟨2, 3, 4, 5, 6, 7⟩ 10 20).trans ?_
    simp only [Mat2D.mk.injEq]
    norm_num
  · exact (cloneScrollPosition_amended opts0 divW clonedScrollW).2.1
      (by constructor <;> decide)
  · exact (cloneScrollPosition_amended opts0 scrolledW clonedScrollW).2.2
      (by intro hc; exact absurd hc.1 (by decide))

theorem lookupKey_isNone {α : Type} :
    ∀ (l : List (String × α)) (k : String),
      (lookupKey l k).isNone = !((l.map Prod.fst).contains k) := by
  intro l
  induction l with
  | nil => intro k; rfl
  | cons a as_ ih =>
    intro k
    by_cases h : k = a.1
    · subst h
      simp [lookupKey, List.contains_cons]
    · have hb : (k == a.1) = false := beq_eq_false_iff_ne.mpr h
      simp [lookupKey, h, List.contains_cons, hb, ih]

theorem qualIds_not_mem_seen (opts : Options) (clone : DomNode) :
    ∀ (uses : List DomNode) (seen : List String) (x : String),
      x ∈ qualIds opts clone uses seen → x ∉ seen := by
  intro uses
  induction uses with
  | nil => intro seen x hx; simp [qualIds] at hx
  | cons use rest ih =>
    intro seen x hx
    rw [qualIds] at hx
    cases hid : use.getAttrOf "xlink:href" with
    | none =>
      rw [hid] at hx
      exact ih seen x hx
    | some id =>
      simp only [hid] at hx
      by_cases hne : id ≠ ""
      · rw [if_pos hne] at hx
        cases hdq : docQuerySelector opts.doc id with
        | none =>
          rw [hdq] at hx
          exact ih seen x hx
        | some d =>
          simp only [hdq] at hx
          by_cases hg : ((querySelector clone id).isNone &&
              !(seen.contains id)) = true
          · rw [if_pos hg] at hx
            rcases List.mem_cons.mp hx with hx | hx
            · subst hx
              have h2 : (seen.contains x) = false := by
                cases hcx : seen.contains x with
                | false => rfl
                | true => rw [hcx] at hg; simp at hg
              intro hmem
              have he : List.elem x seen = true := List.elem_eq_true_of_mem hmem
              rw [show seen.contains x = List.elem x seen from rfl, he] at h2
              exact Bool.true_eq_false.mp h2
            · intro hmem
              exact ih (seen ++ [id]) x hx (List.mem_append_left _ hmem)
          · rw [if_neg hg] at hx
            exact ih seen x hx
      · rw [if_neg hne] at hx
        exact ih seen x hx

theorem qualIds_nodup (opts : Options) (clone : DomNode) :
    ∀ (uses : List DomNode) (seen : List String),
      (qualIds opts clone uses seen).Nodup := by
  intro uses
  induction uses with
  | nil => intro seen; simp [qualIds]
  | cons use rest ih =>
    intro seen
    rw [qualIds]
    cases hid : use.getAttrOf "xlink:href" with
    | none => exact ih seen
    | some id =>
      simp only [hid]
      by_cases hne : id ≠ ""
      · rw [if_pos hne]
        cases hdq : docQuerySelector opts.doc id with
        | none => exact ih seen
        | some d =>
          simp only [hdq]
          by_cases hg : ((querySelector clone id).isNone &&
              !(seen.contains id)) = true
          · rw [if_pos hg]
            refine List.nodup_cons.mpr ⟨?_, ih (seen ++ [id])⟩
            intro hmem
            exact qualIds_not_mem_seen opts clone rest (seen ++ [id]) id hmem
              (List.mem_append_right _ (List.mem_singleton.mpr rfl))
          · rw [if_neg hg]
            exact ih seen
      · rw [if_neg hne]
        exact ih seen

theorem collectDefs_keys (recN : DomNode → Bool → Option (Option DomNode))
    (opts : Options) (clone : DomNode) :
    ∀ (uses : List DomNode) (acc res : List (String × DomNode)),
      collectDefs recN opts clone uses acc = some res →
      res.map Prod.fst =
        acc.map Prod.fst ++ qualIds opts clone uses (acc.map Prod.fst) := by
  intro uses
  induction uses with
  | nil =>
    intro acc res h
    rw [collectDefs] at h
    cases h
    simp [qualIds]
  | cons use rest ih =>
    intro acc res h
    rw [collectDefs] at h
    rw [qualIds]
    cases hid : use.getAttrOf "xlink:href" with
    | none =>
      rw [hid] at h
      exact ih acc res h
    | some id =>
      simp only [hid] at h ⊢
      by_cases hne : id ≠ ""
      · rw [if_pos hne] at h
        rw [if_pos hne]
        cases hdq : docQuerySelector opts.doc id with
        | none =>
          rw [hdq] at h
          exact ih acc res h
        | some d =>
          simp only [hdq] at h ⊢
          by_cases hg : ((querySelector clone id).isNone &&
              !((acc.map Prod.fst).contains id)) = true
          · have hg' : ((querySelector clone id).isNone &&
                (lookupKey acc id).isNone) = true := by
              rw [lookupKey_isNone]
              exact hg
            rw [if_pos hg'] at h
            rw [if_pos hg]
            cases hr : recN d true with
            | none => rw [hr] at h; cases h
            | some r =>
              rw [hr] at h
              cases r with
              | none => cases h
              | some c =>
                have := ih (acc ++ [(id, c)]) res h
                rw [this]
                simp
          · have hgf : ((querySelector clone id).isNone &&
                !((acc.map Prod.fst).contains id)) = false :=
              (Bool.not_eq_true _) ▸ hg
            have hg' : ¬(((querySelector clone id).isNone &&
                (lookupKey acc id).isNone) = true) := by
              rw [lookupKey_isNone, hgf]
              exact Bool.false_ne_true
            rw [if_neg hg'] at h
            rw [if_neg hg]
            exact ih acc res h
      · rw [if_neg hne] at h
        rw [if_neg hne]
        exact ih acc res h

theorem collectDefs_of_qualIds_nil
    (recN : DomNode → Bool → Option (Option DomNode)) (opts : Options)
    (clone : DomNode) :
    ∀ (uses : List DomNode) (acc : List (String × DomNode)),
      qualIds opts clone uses (acc.map Prod.fst) = [] →
      collectDefs recN opts clone uses acc = some acc := by
  intro uses
  induction uses with
  | nil => intro acc _; rfl
  | cons use rest ih =>
    intro acc hq
    rw [qualIds] at hq
    rw [collectDefs]
    cases hid : use.getAttrOf "xlink:href" with
    | none =>
      rw [hid] at hq
      exact ih acc hq
    | some id =>
      simp only [hid] at hq ⊢
      by_cases hne : id ≠ ""
      · rw [if_pos hne] at hq
        rw [if_pos hne]
        cases hdq : docQuerySelector opts.doc id with
        | none =>
          rw [hdq] at hq
          exact ih acc hq
        | some d =>
          simp only [hdq] at hq ⊢
          by_cases hg : ((querySelector clone id).isNone &&
              !((acc.map Prod.fst).contains id)) = true
          · rw [if_pos hg] at hq
            cases hq
          · rw [if_neg hg] at hq
            have hg' : ¬(((querySelector clone id).isNone &&
                (lookupKey acc id).isNone) = true) := by
              rw [lookupKey_isNone]
              exact hg
            rw [if_neg hg']
            exact ih acc hq
      · rw [if_neg hne] at hq
        rw [if_neg hne]
        exact ih acc hq

theorem qualIds_nil_of_no_qualifying (opts : Options) (clone : DomNode) :
    ∀ (uses : List DomNode) (seen : List String),
      (∀ u ∈ uses, useQualifies opts clone u = false) →
      qualIds opts clone uses seen = [] := by
  intro uses
  induction uses with
  | nil => intro seen _; rfl
  | cons use rest ih =>
    intro seen h
    have hu := h use (List.mem_cons_self use rest)
    have hrest := fun x hx => h x (List.mem_cons_of_mem use hx)
    rw [qualIds]
    rw [useQualifies] at hu
    cases hid : use.getAttrOf "xlink:href" with
    | none => exact ih seen hrest
    | some id =>
      simp only [hid] at hu ⊢
      by_cases hne : id ≠ ""
      · rw [if_pos hne]
        cases hdq : docQuerySelector opts.doc id with
        | none => exact ih seen hrest
        | some d =>
          simp only [hdq] at hu ⊢
          have hqs : (querySelector clone id).isNone = false := by
            cases hb : (querySelector clone id).isNone with
            | false => rfl
            | true =>
              rw [hb] at hu
              simp [hne] at hu
          rw [if_neg (by rw [hqs]; simp)]
          exact ih seen hrest
      · rw [if_neg hne]
        exact ih seen hrest

/-- C4: on a successful run of `ensureSVGSymbols`, the collected ids are
free of duplicates — each referenced symbol definition that is not already
present in the clone is cloned at most once no matter how many `<use>`
elements reference it; when nothing qualifies the clone is returned
unchanged; when at least one definition was collected, exactly one
synthetic container is appended to the clone root, and that container is
a hidden, zero-size, absolutely-positioned `svg` holding a single `defs`
wrapper with all collected definitions. -/
theorem ensureSVGSymbols_dedup
    (recN : DomNode → Bool → Option (Option DomNode)) (opts : Options)
    (clone res : DomNode)
    (h : ensureSVGSymbols recN opts clone = some res) :
    (qualIds opts clone (querySelectorAllTag clone "use") []).Nodup ∧
    (qualIds opts clone (querySelectorAllTag clone "use") [] = [] →
      res = clone) ∧
    (qualIds opts clone (querySelectorAllTag clone "use") [] ≠ [] →
      ∃ defsList : List (String × DomNode),
        defsList.map Prod.fst =
          qualIds opts clone (querySelectorAllTag clone "use") [] ∧
        res = clone.appendChild (defsContainer (defsList.map Prod.snd)) ∧
        (clone.isElem = true →
          res.childNodes =
            clone.childNodes ++ [defsContainer (defsList.map Prod.snd)])) ∧
    (∀ ds : List DomNode,
      (defsContainer ds).tagOf = "svg" ∧
      (defsContainer ds).styleValOf "position" = "absolute" ∧
      (defsContainer ds).styleValOf "width" = "0" ∧
      (defsContainer ds).styleValOf "height" = "0" ∧
      (defsContainer ds).styleValOf "overflow" = "hidden" ∧
      (defsContainer ds).styleValOf "display" = "none" ∧
      ∃ defsEl : DomNode, (defsContainer ds).childNodes = [defsEl] ∧
        defsEl.tagOf = "defs" ∧ defsEl.childNodes = ds) := by
  have hshape : ∀ ds : List DomNode,
      (defsContainer ds).tagOf = "svg" ∧
      (defsContainer ds).styleValOf "position" = "absolute" ∧
      (defsContainer ds).styleValOf "width" = "0" ∧
      (defsContainer ds).styleValOf "height" = "0" ∧
      (defsContainer ds).styleValOf "overflow" = "hidden" ∧
      (defsContainer ds).styleValOf "display" = "none" ∧
      ∃ defsEl : DomNode, (defsContainer ds).childNodes = [defsEl] ∧
        defsEl.tagOf = "defs" ∧ defsEl.childNodes = ds := by
    intro ds
    exact ⟨rfl, rfl, rfl, rfl, rfl, rfl,
      ⟨.element (ElemInfo.plain "defs" true .generic) none none [] ds,
        rfl, rfl, rfl⟩⟩
  rw [ensureSVGSymbols] at h
  by_cases hlen : ((querySelectorAllTag clone "use").length == 0) = true
  · rw [if_pos hlen] at h
    have hres : res = clone := (Option.some.injEq _ _ ▸ h).symm
    have huses : querySelectorAllTag clone "use" = [] :=
      List.eq_nil_of_length_eq_zero (by simpa using hlen)
    rw [huses]
    exact ⟨List.nodup_nil, fun _ => hres, fun hq => absurd rfl hq, hshape⟩
  · rw [if_neg hlen] at h
    cases hc : collectDefs recN opts clone (querySelectorAllTag clone "use") []
        with
    | none => simp [hc] at h
    | some pd =>
      simp only [hc] at h
      have hkeys := collectDefs_keys recN opts clone
        (querySelectorAllTag clone "use") [] pd hc
      simp only [List.map_nil, List.nil_append] at hkeys
      by_cases hn : (pd.map (fun x => x.2)).length ≠ 0
      · rw [if_pos hn] at h
        have hres : res = clone.appendChild (defsContainer (pd.map (fun x => x.2))) :=
          (Option.some.injEq _ _ ▸ h).symm
        refine ⟨qualIds_nodup opts clone _ _, ?_, ?_, hshape⟩
        · intro hq
          rw [hq] at hkeys
          have : pd = [] := List.map_eq_nil_iff.mp hkeys
          rw [this] at hn
          exact absurd rfl hn
        · intro _
          refine ⟨pd, hkeys, hres, ?_⟩
          intro hel
          rw [hres]
          exact childNodes_appendChild_of_isElem clone _ hel
      · rw [if_neg hn] at h
        have hres : res = clone := (Option.some.injEq _ _ ▸ h).symm
        have hpd : pd = [] := by
          have : (pd.map (fun x => x.2)).length = 0 := by
            by_contra hcon
            exact hn hcon
          exact List.map_eq_nil_iff.mp (List.eq_nil_of_length_eq_zero this)
        refine ⟨qualIds_nodup opts clone _ _, fun _ => hres, ?_, hshape⟩
        intro hq
        rw [hpd] at hkeys
        exact absurd hkeys.symm hq

/-- A `<use>` element referencing `#icon` through `xlink:href`. -/
def useW : DomNode :=
  .element { ElemInfo.plain "use" false .generic with
      attrs := [("xlink:href", "#icon")] } none none [] []

/-- A clone containing two identical `<use xlink:href="#icon">` elements. -/
def cloneW : DomNode :=
  .element (ElemInfo.plain "svg" false .generic) none none [] [useW, useW]

/-- The document-side symbol definition with id `icon`. -/
def defW : DomNode :=
  .element { ElemInfo.plain "symbol" false .generic with
      attrs := [("id", "icon")] } none none [] []

/-- A document holding the `icon` definition. -/
def docW : DomNode :=
  .element (ElemInfo.plain "html" true .generic) none none [] [defW]

/-- Witness options whose document is `docW`. -/
def optsDocW : Options := { opts0 with doc := docW }

/-- C4 witness: two `<use>` elements referencing the same id collect it
exactly once, and the synthetic container appended to the clone holds
exactly that one definition. -/
theorem ensureSVGSymbols_dedup_witness :
    qualIds optsDocW cloneW (querySelectorAllTag cloneW "use") [] = ["#icon"] ∧
    (qualIds optsDocW cloneW (querySelectorAllTag cloneW "use") []).Nodup ∧
    ∃ defsList : List (String × DomNode),
      defsList.map Prod.fst = ["#icon"] ∧
      ensureSVGSymbols (fun n _ => some (some n)) optsDocW cloneW =
        some (cloneW.appendChild (defsContainer (defsList.map Prod.snd))) := by
  have h : ensureSVGSymbols (fun n _ => some (some n)) optsDocW cloneW =
      some (cloneW.appendChild (defsContainer [defW])) := rfl
  have T := ensureSVGSymbols_dedup (fun n _ => some (some n)) optsDocW cloneW
    (cloneW.appendChild (defsContainer [defW])) h
  refine ⟨by decide, T.1, ?_⟩
  obtain ⟨dl, h1, h2, _⟩ := T.2.2.1 (by decide)
  exact ⟨dl, h1.trans (by decide), by rw [← h2]; exact h⟩

/-- C10: symbol references are resolved exclusively through `xlink:href` —
a `<use>` carrying no `xlink:href` attribute (even one with a modern
`href`) contributes nothing to the collection loop, and when no `<use>`
in the clone qualifies (no non-empty `xlink:href` naming a document
definition absent from the clone), the clone is returned unchanged with
no synthetic container appended. -/
theorem ensureSVGSymbols_xlink_only
    (recN : DomNode → Bool → Option (Option DomNode)) (opts : Options)
    (clone : DomNode) :
    (∀ (use : DomNode) (rest : List DomNode) (acc : List (String × DomNode)),
       use.getAttrOf "xlink:href" = none →
       collectDefs recN opts clone (use :: rest) acc =
         collectDefs recN opts clone rest acc) ∧
    ((∀ u ∈ querySelectorAllTag clone "use",
        useQualifies opts clone u = false) →
       ensureSVGSymbols recN opts clone = some clone) := by
  constructor
  · intro use rest acc hnone
    rw [collectDefs]
    simp only [hnone]
  · intro hall
    rw [ensureSVGSymbols]
    by_cases hlen : ((querySelectorAllTag clone "use").length == 0) = true
    · rw [if_pos hlen]
    · rw [if_neg hlen]
      have hq : qualIds opts clone (querySelectorAllTag clone "use") [] = [] :=
        qualIds_nil_of_no_qualifying opts clone _ [] hall
      have hc := collectDefs_of_qualIds_nil recN opts clone
        (querySelectorAllTag clone "use") [] (by simpa using hq)
      rw [hc]
      simp

/-- A `<use>` element carrying only the modern `href` attribute. -/
def useHrefW : DomNode :=
  .element { ElemInfo.plain "use" false .generic with
      attrs := [("href", "#icon")] } none none [] []

/-- A clone whose only `<use>` element lacks `xlink:href`. -/
def cloneHrefW : DomNode :=
  .element (ElemInfo.plain "svg" false .generic) none none [] [useHrefW]

/-- C10 witness: the `href`-only `<use>` is skipped by the collection loop
and the clone comes back unchanged, no container added — although the
document does define `#icon`. -/
theorem ensureSVGSymbols_xlink_only_witness :
    collectDefs (fun n _ => some (some n)) optsDocW cloneHrefW [useHrefW] [] =
      collectDefs (fun n _ => some (some n)) optsDocW cloneHrefW [] [] ∧
    ensureSVGSymbols (fun n _ => some (some n)) optsDocW cloneHrefW =
      some cloneHrefW := by
  constructor
  · exact (ensureSVGSymbols_xlink_only (fun n _ => some (some n)) optsDocW
      cloneHrefW).1 useHrefW [] [] rfl
  · refine (ensureSVGSymbols_xlink_only (fun n _ => some (some n)) optsDocW
      cloneHrefW).2 ?_
    intro u hu
    have hlist : querySelectorAllTag cloneHrefW "use" = [useHrefW] := rfl
    rw [hlist, List.mem_singleton] at hu
    subst hu
    decide

/-- C9: a successful embed of an HTML image discards any prior `srcset`
(sets it to the empty string) and sets `src` to the resolved data URL; an
SVG image instead gets exactly its `href.baseVal` replaced, with `src` and
`srcset` untouched. -/
theorem embedImageNode_srcset_discarded (isDataUrl : String → Bool)
    (resolve : String → String) (node : DomNode) :
    (isHTMLImageEl node = true → isDataUrl node.srcOf = false →
       (embedImageNode isDataUrl resolve node).1.srcsetOf = "" ∧
       (embedImageNode isDataUrl resolve node).1.srcOf = resolve node.srcOf) ∧
    (isSVGImageEl node = true → isDataUrl node.hrefBaseValOf = false →
       (embedImageNode isDataUrl resolve node).1.hrefBaseValOf =
         resolve node.hrefBaseValOf ∧
       (embedImageNode isDataUrl resolve node).1.srcsetOf = node.srcsetOf ∧
       (embedImageNode isDataUrl resolve node).1.srcOf = node.srcOf) := by
  constructor
  · intro h1 h2
    cases node with
    | element i ib sh asg cs =>
      have hk : i.kind = EKind.img := by
        cases hkk : i.kind <;> simp_all [isHTMLImageEl]
      rw [embedImageNode_html_eq isDataUrl resolve i ib sh asg cs hk h2]
      simp [DomNode.srcsetOf, DomNode.srcOf]
    | text s => simp [isHTMLImageEl] at h1
    | comment s => simp [isHTMLImageEl] at h1
  · intro h1 h2
    cases node with
    | element i ib sh asg cs =>
      have hk : i.kind = EKind.svgImage := by
        cases hkk : i.kind <;> simp_all [isSVGImageEl]
      rw [embedImageNode_svg_eq isDataUrl resolve i ib sh asg cs hk h2]
      simp [DomNode.srcsetOf, DomNode.srcOf, DomNode.hrefBaseValOf]
    | text s => simp [isSVGImageEl] at h1
    | comment s => simp [isSVGImageEl] at h1

/-- C9 witness: a concrete HTML image with a `srcset` loses it and gains
the resolved `src`; a concrete SVG image keeps `src`/`srcset` and gets its
href replaced. -/
theorem embedImageNode_srcset_discarded_witness :
    ((embedImageNode isDataUrl0 resolve0
        (.element { ElemInfo.plain "img" true .img with
            src := "http:a", srcset := "http:a 2x" } none none [] [])).1.srcsetOf
        = "" ∧
     (embedImageNode isDataUrl0 resolve0
        (.element { ElemInfo.plain "img" true .img with
            src := "http:a", srcset := "http:a 2x" } none none [] [])).1.srcOf
        = "data:ok") ∧
    ((embedImageNode isDataUrl0 resolve0
        (.element { ElemInfo.plain "image" false .svgImage with
            hrefBaseVal := "http:b", srcset := "keep" }
          none none [] [])).1.hrefBaseValOf = "data:ok" ∧
     (embedImageNode isDataUrl0 resolve0
        (.element { ElemInfo.plain "image" false .svgImage with
            hrefBaseVal := "http:b", srcset := "keep" }
          none none [] [])).1.srcsetOf = "keep") := by
  refine ⟨?_, ?_⟩
  · have h := (embedImageNode_srcset_discarded isDataUrl0 resolve0
      (.element { ElemInfo.plain "img" true .img with
          src := "http:a", srcset := "http:a 2x" } none none [] [])).1
      (by decide) (by decide)
    exact ⟨h.1, h.2⟩
  · have h := (embedImageNode_srcset_discarded isDataUrl0 resolve0
      (.element { ElemInfo.plain "image" false .svgImage with
          hrefBaseVal := "http:b", srcset := "keep" } none none [] [])).2
      (by decide) (by decide)
    exact ⟨h.1, h.2.1⟩

end HtmlToImage
